import Mathlib

/-!
# charles-motors-be: route handlers of `routes/api/{posts,motorcycles,profile}.js`

A shallow embedding of the Express route handlers.  A collection of the
document store is a list of documents; a handler is a function from the
collection and the request to the reply it sends and the collection it leaves
behind.  The operations of the store that the handlers call (`findById`,
`findOne`, `save`, `deleteOne`, `findOneAndUpdate`) are modelled as succeeding
list operations.  A lookup casts the string it is given to an object
identifier: hexadecimal digits are read without regard to case, and a string
that is not an object identifier throws a cast error, which is what the handlers
test with `err.kind === 'ObjectId'`.
-/

namespace CharlesMotors

/-! ## Identifiers and replies -/

/-- An object identifier of the store, kept as the 24-digit hexadecimal string
that `toString()` prints. -/
structure ObjectId where
  hex : String
  deriving DecidableEq, Repr

/-- The `toString()` of an object identifier. -/
def ObjectId.toString (o : ObjectId) : String := o.hex

/-- Casting the string of an authenticated user (`req.user.id`, the printed
identifier of a stored user) to the object identifier stored in a `user`
path.  The authentication hands on the identifier as the store prints it, and
on a printed identifier the cast changes nothing. -/
def castObjectId (s : String) : ObjectId := ⟨s⟩

/-- Whether a character is a hexadecimal digit. -/
def isHexChar (c : Char) : Bool :=
  (48 ≤ c.toNat && c.toNat ≤ 57) || (65 ≤ c.toNat && c.toNat ≤ 70) ||
    (97 ≤ c.toNat && c.toNat ≤ 102)

/-- Whether a request parameter can be cast to an object identifier: 24
hexadecimal digits. -/
def isValidObjectId (s : String) : Bool :=
  s.data.length == 24 && s.data.all isHexChar

/-- The lower-case form of a hexadecimal digit. -/
def lowerHex (c : Char) : Char :=
  match c with
  | 'A' => 'a'
  | 'B' => 'b'
  | 'C' => 'c'
  | 'D' => 'd'
  | 'E' => 'e'
  | 'F' => 'f'
  | c => c

/-- The string that the store prints for the object identifier to which it casts
a 24-digit hexadecimal string: the digits are read without regard to case and
printed in lower case.  A printed identifier is its own canonical form. -/
def canonical (s : String) : String := ⟨s.data.map lowerHex⟩

/-- What a handler sends: `res.json(body)` (status 200 unless set), an object
with one text `res.status(s).json({ msg })` (the key is `msg` or `message`), the
validation errors `res.status(400).json({ errors })`, or
`res.status(s).send(text)`. -/
inductive Reply (α : Type) where
  | json (status : Nat) (body : α)
  | message (status : Nat) (msg : String)
  | errors (status : Nat) (errs : List String)
  | send (status : Nat) (text : String)
  deriving DecidableEq, Repr

/-- The HTTP status of a reply. -/
def Reply.status {α : Type} : Reply α → Nat
  | .json s _ => s
  | .message s _ => s
  | .errors s _ => s
  | .send s _ => s

/-- An exception thrown inside a handler's `try` block. -/
inductive Thrown where
  | castError
  | typeError
  deriving DecidableEq, Repr

/-- The `kind` property of a thrown error: `'ObjectId'` on a cast error. -/
def Thrown.kind : Thrown → Option String
  | .castError => some "ObjectId"
  | .typeError => none

/-- Equality of the outcomes of a store operation is decidable. -/
instance instDecidableEqExcept {ε α : Type} [DecidableEq ε] [DecidableEq α] :
    DecidableEq (Except ε α)
  | .ok a, .ok b =>
    if h : a = b then isTrue (by rw [h]) else isFalse (fun h' => h (Except.ok.inj h'))
  | .error a, .error b =>
    if h : a = b then isTrue (by rw [h]) else isFalse (fun h' => h (Except.error.inj h'))
  | .ok _, .error _ => isFalse (fun h => Except.noConfusion h)
  | .error _, .ok _ => isFalse (fun h => Except.noConfusion h)

/-! ## Array primitives of the host language -/

/-- `Array.prototype.indexOf`: the index of the first element strictly equal
to `x`, or `-1`. -/
def indexOf (xs : List String) (x : String) : Int :=
  if x ∈ xs then (List.indexOf x xs : Int) else -1

/-- `Array.prototype.splice(start, deleteCount)`: the array that is left.  A
negative `start` counts from the end. -/
def splice {α : Type} (xs : List α) (start : Int) (deleteCount : Nat) : List α :=
  let len := xs.length
  let actualStart : Nat :=
    if start < 0 then (max ((len : Int) + start) 0).toNat else min start.toNat len
  let actualDeleteCount : Nat := min deleteCount (len - actualStart)
  xs.take actualStart ++ xs.drop (actualStart + actualDeleteCount)

/-! ## String primitives of the host language -/

/-- The characters that `String.prototype.trim` strips: white space and line
terminators. -/
def isWhiteSpace (c : Char) : Bool :=
  c.toNat ∈ [0x9, 0xA, 0xB, 0xC, 0xD, 0x20, 0xA0, 0x1680, 0x2000, 0x2001, 0x2002, 0x2003,
    0x2004, 0x2005, 0x2006, 0x2007, 0x2008, 0x2009, 0x200A, 0x2028, 0x2029, 0x202F, 0x205F,
    0x3000, 0xFEFF]

/-- `String.prototype.trim`: the string without its leading and trailing white
space. -/
def trim (s : String) : String :=
  ⟨((s.data.dropWhile isWhiteSpace).reverse.dropWhile isWhiteSpace).reverse⟩

/-- The pieces of a character sequence between the occurrences of `sep`. -/
def splitChars (sep : Char) : List Char → List (List Char)
  | [] => [[]]
  | c :: cs =>
    if c = sep then [] :: splitChars sep cs
    else
      match splitChars sep cs with
      | [] => [[c]]
      | piece :: pieces => (c :: piece) :: pieces

/-- `String.prototype.split(sep)` for a separator of one character. -/
def split (s : String) (sep : Char) : List String :=
  (splitChars sep s.data).map String.mk

/-- Truthiness of a body field that is a string or missing: `if (field)` passes
for a string that is not empty. -/
def truthy : Option String → Bool
  | some v => v ≠ ""
  | none => false

/-! ## Documents -/

/-- An entry of `likes` (post) or `loves` (motorcycle): a sub-document with its
own `_id` and the reacting user. -/
structure Reaction where
  _id : ObjectId
  user : ObjectId
  deriving DecidableEq, Repr

/-- An entry of `comments`. -/
structure Comment where
  _id : ObjectId
  user : ObjectId
  text : String
  name : String
  avatar : Option String
  date : Nat
  deriving DecidableEq, Repr

/-- The `id` getter of a sub-document: the string of its `_id`. -/
def Comment.id (c : Comment) : String := c._id.toString

/-- A stored user (`models/User.js`), without the password. -/
structure User where
  _id : ObjectId
  name : String
  email : String
  avatar : Option String
  deriving DecidableEq, Repr

/-- Modelled from the spec: the Post document, whose schema file
`models/Post.js` is not part of the sources; the fields are those of the data
model and of `new Post({...})` in `routes/api/posts.js`. -/
structure Post where
  _id : ObjectId
  user : ObjectId
  text : String
  name : String
  avatar : Option String
  likes : List Reaction
  comments : List Comment
  date : Nat
  deriving DecidableEq, Repr

/-- An entry of `maintenanceHistory`. -/
structure MaintenanceRecord where
  serviceType : String
  date : Nat
  description : Option String
  deriving DecidableEq, Repr

/-- The `insurance` nested path of a motorcycle. -/
structure Insurance where
  provider : Option String
  policyNumber : Option String
  validFrom : Option Nat
  validTo : Option Nat
  deriving DecidableEq, Repr

/-- The `social` nested path of a motorcycle. -/
structure MotorcycleSocial where
  youtube : Option String
  instagram : Option String
  reddit : Option String
  tiktok : Option String
  facebook : Option String
  x : Option String
  deriving DecidableEq, Repr

/-- The Motorcycle document (`models/Motorcycle.js`). -/
structure Motorcycle where
  _id : ObjectId
  user : ObjectId
  make : String
  model : String
  year : Nat
  price : Nat
  type : String
  engineCapacity : String
  mileage : Option Nat
  color : Option String
  status : String
  maintenanceHistory : List MaintenanceRecord
  insurance : Insurance
  accessories : List String
  social : MotorcycleSocial
  loves : List Reaction
  comments : List Comment
  date : Nat
  deriving DecidableEq, Repr

/-- Modelled from the spec: the social-link mapping of a profile (sparse, one
optional URL per platform); the schema file `models/Profile.js` is not part of
the sources, the platforms are those assigned in `routes/api/profile.js`. -/
structure Social where
  youtube : Option String
  facebook : Option String
  twitter : Option String
  instagram : Option String
  linkedin : Option String
  deriving DecidableEq, Repr

/-- Modelled from the spec: an Experience entry of a profile (`models/Profile.js`
is not part of the sources). -/
structure Experience where
  _id : ObjectId
  title : String
  company : String
  location : Option String
  dateFrom : String
  dateTo : Option String
  current : Option Bool
  description : Option String
  deriving DecidableEq, Repr

/-- Modelled from the spec: an Education entry of a profile (`models/Profile.js`
is not part of the sources). -/
structure Education where
  _id : ObjectId
  school : String
  degree : String
  fieldofstudy : String
  dateFrom : String
  dateTo : Option String
  current : Option Bool
  description : Option String
  deriving DecidableEq, Repr

/-- Modelled from the spec: the Profile document (`models/Profile.js` is not part
of the sources); a scalar field that was never set is `none`. -/
structure Profile where
  _id : ObjectId
  user : ObjectId
  company : Option String
  website : Option String
  location : Option String
  bio : Option String
  status : Option String
  githubusername : Option String
  skills : List String
  social : Social
  experience : List Experience
  education : List Education
  date : Nat
  deriving DecidableEq, Repr

/-- The fields of `req.body` that the profile route destructures; `none` is a
missing key. -/
structure ProfileBody where
  company : Option String
  website : Option String
  location : Option String
  bio : Option String
  status : Option String
  githubusername : Option String
  skills : Option String
  youtube : Option String
  facebook : Option String
  twitter : Option String
  instagram : Option String
  linkedin : Option String
  deriving DecidableEq, Repr

/-- The object `profileFields` that the profile route builds; `none` is a key
that was not assigned. -/
structure ProfileFields where
  user : String
  company : Option String
  website : Option String
  location : Option String
  bio : Option String
  status : Option String
  githubusername : Option String
  skills : Option (List String)
  social : Social
  deriving DecidableEq, Repr

/-- The `id` getter of an experience entry: the string of its `_id`. -/
def Experience.id (item : Experience) : String := item._id.toString

/-- The `id` getter of an education entry: the string of its `_id`. -/
def Education.id (item : Education) : String := item._id.toString

/-- The fields of `req.body` that `router.put('/experience')` destructures.  The
three validated fields are strings, empty when the key is missing; `dateFrom`
and `dateTo` are the keys `from` and `to`. -/
structure ExperienceBody where
  title : String
  company : String
  location : Option String
  dateFrom : String
  dateTo : Option String
  current : Option Bool
  description : Option String
  deriving DecidableEq, Repr

/-- The fields of `req.body` that `router.put('/education')` destructures.  The
four validated fields are strings, empty when the key is missing. -/
structure EducationBody where
  school : String
  degree : String
  fieldofstudy : String
  dateFrom : String
  dateTo : Option String
  current : Option Bool
  description : Option String
  deriving DecidableEq, Repr

/-- The paths of a user that `populate("user", ["name", "avatar"])` selects. -/
structure PopulatedUser where
  _id : ObjectId
  name : String
  avatar : Option String
  deriving DecidableEq, Repr

/-- A profile whose `user` path was populated: the profile and the selected
paths of its user, `null` when the user is not stored. -/
structure PopulatedProfile where
  profile : Profile
  user : Option PopulatedUser
  deriving DecidableEq, Repr

/-! ## Store operations -/

/-- `Model.findById(id)`: the string is cast to an object identifier, which
throws a cast error when it is not 24 hexadecimal digits; otherwise the document
whose `_id` is that identifier is yielded, or `null`. -/
def findById {α : Type} (oid : α → ObjectId) (docs : List α) (id : String) :
    Except Thrown (Option α) :=
  if isValidObjectId id then .ok (docs.find? (fun d => (oid d).toString == canonical id))
  else .error .castError

/-- `doc.save()` of a loaded document: the stored document with the same `_id`
is replaced. -/
def save {α : Type} (oid : α → ObjectId) (docs : List α) (doc : α) : List α :=
  docs.map (fun d => if oid d = oid doc then doc else d)

/-- `doc.deleteOne()` of a loaded document: the stored document with the same
`_id` is removed. -/
def deleteOne {α : Type} (oid : α → ObjectId) (docs : List α) (doc : α) : List α :=
  docs.filter (fun d => !(oid d == oid doc))

/-- `Profile.findOne({ user })`: the string is cast to an object identifier,
which throws a cast error when it is not 24 hexadecimal digits; otherwise the
first profile whose `user` is that identifier is yielded, or `null`. -/
def findOne (profiles : List Profile) (userId : String) : Except Thrown (Option Profile) :=
  if isValidObjectId userId then
    .ok (profiles.find? (fun p => p.user.toString == canonical userId))
  else .error .castError

/-- The value of a path after `$set`: the assigned value when the key is in the
update, the stored value otherwise. -/
def setPath {α : Type} (assigned : Option α) (stored : α) : α :=
  match assigned with
  | some v => v
  | none => stored

/-- Modelled from the spec: the effect of `{ $set: profileFields }` on a stored
profile (an operation of the store, outside the sources): each top-level key of
the update overwrites the stored value, keys that are not in the update are left
as stored, and `social`, which is always in the update, is replaced as a
whole.  The string assigned to `user` is cast by the store. -/
def applySet (profile : Profile) (fields : ProfileFields) : Profile :=
  { profile with
    user := castObjectId (canonical fields.user)
    company := setPath (fields.company.map some) profile.company
    website := setPath (fields.website.map some) profile.website
    location := setPath (fields.location.map some) profile.location
    bio := setPath (fields.bio.map some) profile.bio
    status := setPath (fields.status.map some) profile.status
    githubusername := setPath (fields.githubusername.map some) profile.githubusername
    skills := setPath fields.skills profile.skills
    social := fields.social }

/-- `Profile.findOneAndUpdate({ user }, { $set: fields }, { new: true })`: the
first profile whose `user` is the identifier to which the string is cast is
updated; yields the updated profile, or `null` when there is none, and the
collection. -/
def findOneAndUpdate (profiles : List Profile) (userId : String) (fields : ProfileFields) :
    Option Profile × List Profile :=
  match profiles with
  | [] => (none, [])
  | p :: ps =>
    if p.user.toString == canonical userId then
      (some (applySet p fields), applySet p fields :: ps)
    else ((findOneAndUpdate ps userId fields).1, p :: (findOneAndUpdate ps userId fields).2)

/-- `new Profile(profileFields)`: a document with a fresh `_id`, the assigned
paths (the string assigned to `user` is cast), empty sub-lists and the default
`date`. -/
def newProfile (fields : ProfileFields) (freshId : ObjectId) (now : Nat) : Profile :=
  { _id := freshId, user := castObjectId (canonical fields.user), company := fields.company,
    website := fields.website, location := fields.location, bio := fields.bio,
    status := fields.status, githubusername := fields.githubusername,
    skills := setPath fields.skills [], social := fields.social,
    experience := [], education := [], date := now }

/-- `.populate("user", ["name", "avatar"])` on a profile that was found. -/
def populate (users : List User) (profile : Profile) : PopulatedProfile :=
  { profile := profile
    user := (users.find? (fun u => u._id == profile.user)).map
      (fun u => { _id := u._id, name := u.name, avatar := u.avatar }) }

/-! ## `routes/api/profile.js` -/

/-- The object `profileFields` built from the request body by
`router.post('/')`. -/
def buildProfileFields (userId : String) (body : ProfileBody) : ProfileFields :=
  { user := userId
    company := if truthy body.company then body.company else none
    website := if truthy body.website then body.website else none
    location := if truthy body.location then body.location else none
    bio := if truthy body.bio then body.bio else none
    status := if truthy body.status then body.status else none
    githubusername := if truthy body.githubusername then body.githubusername else none
    skills :=
      match body.skills with
      | some skills =>
        if skills ≠ "" then some ((split skills ',').map (fun skill => trim skill)) else none
      | none => none
    social :=
      { youtube := if truthy body.youtube then body.youtube else none
        facebook := if truthy body.facebook then body.facebook else none
        twitter := if truthy body.twitter then body.twitter else none
        instagram := if truthy body.instagram then body.instagram else none
        linkedin := if truthy body.linkedin then body.linkedin else none } }

/-- The validation chain of `router.post('/')`: `status` and `skills` must not
be empty. -/
def profileErrors (body : ProfileBody) : List String :=
  (if truthy body.status then [] else ["Status is required"]) ++
    (if truthy body.skills then [] else ["Skills are required"])

/-- `router.post('/')` of profiles.  `freshId` and `now` are the `_id` and the
`date` given to a profile that is created. -/
def postProfile (profiles : List Profile) (userId : String) (body : ProfileBody)
    (freshId : ObjectId) (now : Nat) : Reply (Option Profile) × List Profile :=
  if profileErrors body ≠ [] then (.errors 400 (profileErrors body), profiles)
  else
    let profileFields := buildProfileFields userId body
    match findOne profiles userId with
    | .ok (some _) =>
      (.json 200 (findOneAndUpdate profiles userId profileFields).1,
        (findOneAndUpdate profiles userId profileFields).2)
    | .ok none =>
      (.json 200 (some (newProfile profileFields freshId now)),
        profiles ++ [newProfile profileFields freshId now])
    | .error _ => (.send 500 "Server Error", profiles)

/-- `router.get('/me')`. -/
def getMe (users : List User) (profiles : List Profile) (userId : String) :
    Reply PopulatedProfile :=
  match findOne profiles userId with
  | .ok none => .message 400 "There is no profile for this user"
  | .ok (some profile) => .json 200 (populate users profile)
  | .error _ => .send 500 "Server Error"

/-- `router.get('/user/:user_id')`. -/
def getProfileByUser (users : List User) (profiles : List Profile) (user_id : String) :
    Reply PopulatedProfile :=
  match findOne profiles user_id with
  | .ok none => .message 400 "Profile not found"
  | .ok (some profile) => .json 200 (populate users profile)
  | .error err =>
    if err.kind = some "ObjectId" then .message 400 "Profile not found"
    else .send 500 "Server Error"

/-- The validation chain of `router.put('/experience')`. -/
def experienceErrors (body : ExperienceBody) : List String :=
  (if body.title = "" then ["Title is required"] else []) ++
    (if body.company = "" then ["Company is required"] else []) ++
    (if body.dateFrom = "" then ["From date is required"] else [])

/-- `router.put('/experience')`.  `freshId` is the `_id` given to the new
sub-document.  The profile that `findOne` yields is used without a test, so
reading `experience` of `null` throws, which the `catch` answers with 500. -/
def putExperience (profiles : List Profile) (userId : String) (body : ExperienceBody)
    (freshId : ObjectId) : Reply Profile × List Profile :=
  if experienceErrors body ≠ [] then (.errors 400 (experienceErrors body), profiles)
  else
    let newExp : Experience :=
      { _id := freshId, title := body.title, company := body.company,
        location := body.location, dateFrom := body.dateFrom, dateTo := body.dateTo,
        current := body.current, description := body.description }
    match findOne profiles userId with
    | .ok (some profile) =>
      (.json 200 { profile with experience := newExp :: profile.experience },
        save Profile._id profiles { profile with experience := newExp :: profile.experience })
    | .ok none => (.send 500 "Server Error", profiles)
    | .error _ => (.send 500 "Server Error", profiles)

/-- `router.delete('/experience/:exp_id')`.  As in the route above, a missing
profile makes the read of `experience` throw. -/
def deleteExperience (profiles : List Profile) (userId : String) (exp_id : String) :
    Reply Profile × List Profile :=
  match findOne profiles userId with
  | .ok (some profile) =>
    let removeIndex := indexOf (profile.experience.map (fun item => item.id)) exp_id
    if removeIndex < 0 then (.message 404 "Experience not found", profiles)
    else
      (.json 200 { profile with experience := splice profile.experience removeIndex 1 },
        save Profile._id profiles
          { profile with experience := splice profile.experience removeIndex 1 })
  | .ok none => (.send 500 "Server Error", profiles)
  | .error _ => (.send 500 "Server Error", profiles)

/-- The validation chain of `router.put('/education')`. -/
def educationErrors (body : EducationBody) : List String :=
  (if body.school = "" then ["School is required"] else []) ++
    (if body.degree = "" then ["Degree is required"] else []) ++
    (if body.fieldofstudy = "" then ["Field of study is required"] else []) ++
    (if body.dateFrom = "" then ["From date is required"] else [])

/-- `router.put('/education')`.  `freshId` is the `_id` given to the new
sub-document.  As for the experience, the profile is used without a test. -/
def putEducation (profiles : List Profile) (userId : String) (body : EducationBody)
    (freshId : ObjectId) : Reply Profile × List Profile :=
  if educationErrors body ≠ [] then (.errors 400 (educationErrors body), profiles)
  else
    let newEdu : Education :=
      { _id := freshId, school := body.school, degree := body.degree,
        fieldofstudy := body.fieldofstudy, dateFrom := body.dateFrom, dateTo := body.dateTo,
        current := body.current, description := body.description }
    match findOne profiles userId with
    | .ok (some profile) =>
      (.json 200 { profile with education := newEdu :: profile.education },
        save Profile._id profiles { profile with education := newEdu :: profile.education })
    | .ok none => (.send 500 "Server Error", profiles)
    | .error _ => (.send 500 "Server Error", profiles)

/-- `router.delete('/education/:education_id')`: the one profile route that
tests the profile before it reads a sub-list. -/
def deleteEducation (profiles : List Profile) (userId : String) (education_id : String) :
    Reply Profile × List Profile :=
  match findOne profiles userId with
  | .ok none => (.message 404 "Profile not found", profiles)
  | .ok (some profile) =>
    let removeIndex := indexOf (profile.education.map (fun item => item.id)) education_id
    if removeIndex < 0 then (.message 404 "Education not found", profiles)
    else
      (.json 200 { profile with education := splice profile.education removeIndex 1 },
        save Profile._id profiles
          { profile with education := splice profile.education removeIndex 1 })
  | .error _ => (.send 500 "Server Error", profiles)

/-! ## `routes/api/posts.js` -/

/-- `router.get('/:id')` of posts. -/
def getPost (posts : List Post) (id : String) : Reply Post :=
  match findById Post._id posts id with
  | .ok none => .message 404 "There is no post found with id"
  | .ok (some post) => .json 200 post
  | .error err =>
    if err.kind = some "ObjectId" then .message 404 "There is no post found with id"
    else .send 500 "Server Error"

/-- `router.delete('/:id')` of posts. -/
def deletePost (posts : List Post) (id : String) (userId : String) :
    Reply Unit × List Post :=
  match findById Post._id posts id with
  | .ok none => (.message 404 "Post not found", posts)
  | .ok (some post) =>
    if post.user.toString ≠ userId then
      (.message 401
        "User not authorized to delete this post, kindly exit this platform! ", posts)
    else
      (.message 200 "Post has been deleted", deleteOne Post._id posts post)
  | .error err =>
    if err.kind = some "ObjectId" then
      (.message 404 "There is no post found with id", posts)
    else (.send 500 "Server Error", posts)

/-- `router.put('/like/:id')`.  `freshId` is the `_id` given to the new
sub-document.  Reading `likes` of a missing post throws, which the `catch`
answers with 500, as it does a cast error. -/
def putLike (posts : List Post) (id : String) (userId : String) (freshId : ObjectId) :
    Reply (List Reaction) × List Post :=
  match findById Post._id posts id with
  | .ok (some post) =>
    if (post.likes.filter (fun like => like.user.toString == userId)).length > 0 then
      (.message 400 "User already liked this post", posts)
    else
      let likes := { _id := freshId, user := castObjectId userId } :: post.likes
      (.json 200 likes, save Post._id posts { post with likes := likes })
  | .ok none => (.send 500 "Server Error", posts)
  | .error _ => (.send 500 "Server Error", posts)

/-- `router.put('/unlike/:id')`. -/
def putUnlike (posts : List Post) (id : String) (userId : String) :
    Reply (List Reaction) × List Post :=
  match findById Post._id posts id with
  | .ok (some post) =>
    if (post.likes.filter (fun like => like.user.toString == userId)).length = 0 then
      (.message 400 "User has not liked post yet", posts)
    else
      let removeIndex := indexOf (post.likes.map (fun like => like.user.toString)) userId
      let likes := splice post.likes removeIndex 1
      (.json 200 likes, save Post._id posts { post with likes := likes })
  | .ok none => (.send 500 "Server Error", posts)
  | .error _ => (.send 500 "Server Error", posts)

/-- `router.post('/comment/:id')`.  `freshId` is the `_id` given to the new
sub-document and `now` the default of its `date`.  The user is fetched before
the post, and its `name` is read only after the post was found. -/
def postComment (users : List User) (posts : List Post) (id : String) (userId : String)
    (text : String) (freshId : ObjectId) (now : Nat) :
    Reply (List Comment) × List Post :=
  if text = "" then (.errors 400 ["Text is required"], posts)
  else
    match findById User._id users userId with
    | .error _ => (.send 500 "Server Error", posts)
    | .ok user =>
      match findById Post._id posts id with
      | .error _ => (.send 500 "Server Error", posts)
      | .ok none => (.message 404 "Post not found", posts)
      | .ok (some post) =>
        match user with
        | none => (.send 500 "Server Error", posts)
        | some user =>
          let newComment : Comment :=
            { _id := freshId, text := text, name := user.name, avatar := user.avatar,
              user := castObjectId userId, date := now }
          let comments := newComment :: post.comments
          (.json 200 comments, save Post._id posts { post with comments := comments })

/-- `router.delete('/comment/:id/:comment_id')`. -/
def deleteComment (posts : List Post) (id : String) (comment_id : String)
    (userId : String) : Reply (List Comment) × List Post :=
  match findById Post._id posts id with
  | .ok (some post) =>
    match post.comments.find? (fun comment => comment.id == comment_id) with
    | none => (.message 404 "Comment does not exist", posts)
    | some comment =>
      if comment.user.toString ≠ userId then
        (.message 401 "User not authorized to delete this comment", posts)
      else
        let removeIndex :=
          indexOf (post.comments.map (fun comment => comment.user.toString)) userId
        let comments := splice post.comments removeIndex 1
        (.json 200 comments, save Post._id posts { post with comments := comments })
  | .ok none => (.send 500 "Server Error", posts)
  | .error _ => (.send 500 "Server Error", posts)

/-! ## `routes/api/motorcycles.js` -/

/-- `router.get('/:id')` of motorcycles.  Its `catch` sends nothing for an
error that is not a cast error: `none` is a request left without a reply. -/
def getMotorcycle (motorcycles : List Motorcycle) (id : String) : Option (Reply Motorcycle) :=
  match findById Motorcycle._id motorcycles id with
  | .ok none => some (.message 404 "Motorcycle not found")
  | .ok (some motorcycle) => some (.json 200 motorcycle)
  | .error err =>
    if err.kind = some "ObjectId" then some (.message 404 "There is no motorcycle found with id")
    else none

/-- `router.delete('/:id')` of motorcycles. -/
def deleteMotorcycle (motorcycles : List Motorcycle) (id : String) (userId : String) :
    Reply Unit × List Motorcycle :=
  match findById Motorcycle._id motorcycles id with
  | .ok none => (.message 404 "Motorcycle is not found", motorcycles)
  | .ok (some motorcycle) =>
    if motorcycle.user.toString ≠ userId then
      (.message 401
        "User not authorized to delete this motorcycle posting, kindly exit this platform! ",
        motorcycles)
    else
      (.message 200 "Motorcycle deleted successfully",
        deleteOne Motorcycle._id motorcycles motorcycle)
  | .error err =>
    if err.kind = some "ObjectId" then
      (.message 404 "There is no motorcycle found with id", motorcycles)
    else (.send 500 "Server Error", motorcycles)

/-- `router.put('/love/:id')`.  `freshId` is the `_id` given to the new
sub-document. -/
def putLove (motorcycles : List Motorcycle) (id : String) (userId : String)
    (freshId : ObjectId) : Reply (List Reaction) × List Motorcycle :=
  match findById Motorcycle._id motorcycles id with
  | .ok (some motorcycle) =>
    if (motorcycle.loves.filter (fun love => love.user.toString == userId)).length > 0 then
      (.message 400 "User already loved this post", motorcycles)
    else
      let loves := { _id := freshId, user := castObjectId userId } :: motorcycle.loves
      (.json 200 loves, save Motorcycle._id motorcycles { motorcycle with loves := loves })
  | .ok none => (.send 500 "Server Error", motorcycles)
  | .error _ => (.send 500 "Server Error", motorcycles)

/-- `router.put('/unlove/:id')`, served at `/api/motorcycles/unlove/:id`; the
route comment above it in the source names `api/posts/unlove/:id`. -/
def putUnlove (motorcycles : List Motorcycle) (id : String) (userId : String) :
    Reply (List Reaction) × List Motorcycle :=
  match findById Motorcycle._id motorcycles id with
  | .ok (some motorcycle) =>
    if (motorcycle.loves.filter (fun love => love.user.toString == userId)).length = 0 then
      (.message 400 "User has not loved motorcycle yet", motorcycles)
    else
      let removeIndex := indexOf (motorcycle.loves.map (fun love => love.user.toString)) userId
      let loves := splice motorcycle.loves removeIndex 1
      (.json 200 loves, save Motorcycle._id motorcycles { motorcycle with loves := loves })
  | .ok none => (.send 500 "Server Error", motorcycles)
  | .error _ => (.send 500 "Server Error", motorcycles)

/-! ## Example documents and requests -/

/-- A stored user identifier. -/
def idA : String := "aaaaaaaaaaaaaaaaaaaaaaaa"

/-- Another stored user identifier. -/
def idB : String := "bbbbbbbbbbbbbbbbbbbbbbbb"

/-- The identifier of the example post. -/
def idP : String := "0123456789abcdef01234567"

/-- A post of user A without reactions or comments. -/
def postP : Post :=
  { _id := ⟨idP⟩, user := ⟨idA⟩, text := "hello", name := "A", avatar := none,
    likes := [], comments := [], date := 0 }

/-- The stored user A. -/
def userA : User := { _id := ⟨idA⟩, name := "A", email := "a@example.com", avatar := none }

/-- The stored user B. -/
def userB : User :=
  { _id := ⟨idB⟩, name := "B", email := "b@example.com", avatar := some "b.png" }

/-- The identifier of the example motorcycle. -/
def idM : String := "fedcba9876543210fedcba98"

/-- A motorcycle of user A without loves or comments. -/
def motoM : Motorcycle :=
  { _id := ⟨idM⟩, user := ⟨idA⟩, make := "Ducati", model := "Monster", year := 2020,
    price := 9000, type := "Sport", engineCapacity := "937cc", mileage := none,
    color := none, status := "Available", maintenanceHistory := [],
    insurance := { provider := none, policyNumber := none, validFrom := none, validTo := none },
    accessories := [],
    social := { youtube := none, instagram := none, reddit := none, tiktok := none,
                facebook := none, x := none },
    loves := [], comments := [], date := 0 }

/-- The `_id` of the first comment of the examples. -/
def idC1 : ObjectId := ⟨"c1c1c1c1c1c1c1c1c1c1c1c1"⟩

/-- The `_id` of the second comment of the examples. -/
def idC2 : ObjectId := ⟨"c2c2c2c2c2c2c2c2c2c2c2c2"⟩

/-- The comment C1 of user A. -/
def commentC1 : Comment :=
  { _id := idC1, user := ⟨idA⟩, text := "first", name := "A", avatar := none, date := 1 }

/-- The comment C2 of user A. -/
def commentC2 : Comment :=
  { _id := idC2, user := ⟨idA⟩, text := "second", name := "A", avatar := none, date := 2 }

/-- The posts after user A commented "first" and then "second" on `postP`. -/
def postsTwoComments : List Post :=
  (postComment [userA, userB]
    (postComment [userA, userB] [postP] idP idA "first" idC1 1).2 idP idA "second" idC2 2).2

/-- A comment of user B on the example post. -/
def commentB : Comment :=
  { _id := ⟨"cbcbcbcbcbcbcbcbcbcbcbcb"⟩, user := ⟨idB⟩, text := "hi", name := "B",
    avatar := some "b.png", date := 3 }

/-- A body without any key. -/
def emptyBody : ProfileBody :=
  { company := none, website := none, location := none, bio := none, status := none,
    githubusername := none, skills := none, youtube := none, facebook := none,
    twitter := none, instagram := none, linkedin := none }

/-- A stored profile of user A with a company, a location and two links. -/
def profileA : Profile :=
  { _id := ⟨"a0a0a0a0a0a0a0a0a0a0a0a0"⟩, user := ⟨idA⟩, company := some "Acme",
    website := none, location := some "X", bio := none, status := some "Rider",
    githubusername := none, skills := ["Road"],
    social := { youtube := some "https://youtube.example/a", facebook := none,
                twitter := some "https://twitter.example/a", instagram := none,
                linkedin := none },
    experience := [], education := [], date := 7 }

/-- A body that passes the validation and carries the key `company` with an
empty value. -/
def bodyEmptyCompany : ProfileBody :=
  { emptyBody with status := some "Owner", skills := some "Road", company := some "" }

/-- A body with only `status` and `skills`. -/
def bodyStatusSkills : ProfileBody :=
  { emptyBody with status := some "Owner", skills := some "Road, Touring ,Vintage" }

/-- The profile of user A after an upsert of `bodyStatusSkills`. -/
def profileAUpdated : Profile :=
  { profileA with
    status := some "Owner"
    skills := ["Road", "Touring", "Vintage"]
    social := { youtube := none, facebook := none, twitter := none, instagram := none,
                linkedin := none } }

/-- The profile of user A after an upsert of `bodyEmptyCompany`. -/
def profileAKeptCompany : Profile :=
  { profileA with
    status := some "Owner"
    skills := ["Road"]
    social := { youtube := none, facebook := none, twitter := none, instagram := none,
                linkedin := none } }

/-- A body that passes the validation, moves the location, sets one link and
carries the key `company` with an empty value. -/
def bodyMove : ProfileBody :=
  { emptyBody with
    status := some "Owner"
    skills := some "a,,b"
    company := some ""
    location := some "Y"
    youtube := some "https://youtube.example/new" }

/-- A body of the experience route that passes the validation. -/
def bodyExp : ExperienceBody :=
  { title := "Mechanic", company := "Acme", location := none, dateFrom := "2020-01-01",
    dateTo := none, current := some true, description := none }

/-- A body of the education route that passes the validation. -/
def bodyEdu : EducationBody :=
  { school := "Tech", degree := "BSc", fieldofstudy := "Engines", dateFrom := "2016-09-01",
    dateTo := some "2019-06-30", current := none, description := none }

/-- The `_id` of the first sub-document of the profile examples. -/
def idE1 : ObjectId := ⟨"e1e1e1e1e1e1e1e1e1e1e1e1"⟩

/-- The `_id` of the second sub-document of the profile examples. -/
def idE2 : ObjectId := ⟨"e2e2e2e2e2e2e2e2e2e2e2e2"⟩

/-- An experience entry with the identifier `idE1`. -/
def expE1 : Experience :=
  { _id := idE1, title := "Mechanic", company := "Acme", location := none,
    dateFrom := "2020-01-01", dateTo := none, current := some true, description := none }

/-- An experience entry with the identifier `idE2`. -/
def expE2 : Experience :=
  { _id := idE2, title := "Courier", company := "Fast", location := some "X",
    dateFrom := "2018-01-01", dateTo := some "2019-12-31", current := none,
    description := none }

/-- An education entry with the identifier `idE1`. -/
def eduE1 : Education :=
  { _id := idE1, school := "Tech", degree := "BSc", fieldofstudy := "Engines",
    dateFrom := "2016-09-01", dateTo := some "2019-06-30", current := none,
    description := none }

/-- An education entry with the identifier `idE2`. -/
def eduE2 : Education :=
  { _id := idE2, school := "College", degree := "Diploma", fieldofstudy := "Welding",
    dateFrom := "2014-09-01", dateTo := some "2016-06-30", current := none,
    description := none }

/-- The profile of user A with two experience and two education entries. -/
def profileAEntries : Profile :=
  { profileA with experience := [expE2, expE1], education := [eduE2, eduE1] }

/-- A post of user A with a comment of B between two comments of A. -/
def postThreeComments : Post :=
  { postP with comments := [commentC2, commentB, commentC1] }

/-! ## Sequences of reaction requests -/

/-- A reaction list holds at most one entry per user when the strings of its
user references are pairwise distinct. -/
def OnePerUser (reactions : List Reaction) : Prop :=
  (reactions.map (fun r => r.user.toString)).Nodup

/-- A request to one of the two reaction routes of posts. -/
inductive LikeRequest where
  | like (id : String) (userId : String) (freshId : ObjectId)
  | unlike (id : String) (userId : String)
  deriving DecidableEq, Repr

/-- The collection left by a reaction request on posts. -/
def LikeRequest.handle (posts : List Post) : LikeRequest → List Post
  | .like id userId freshId => (putLike posts id userId freshId).2
  | .unlike id userId => (putUnlike posts id userId).2

/-- The collection left by a sequence of reaction requests on posts. -/
def handleLikeRequests (posts : List Post) (reqs : List LikeRequest) : List Post :=
  reqs.foldl LikeRequest.handle posts

/-- A request to one of the two reaction routes of motorcycles. -/
inductive LoveRequest where
  | love (id : String) (userId : String) (freshId : ObjectId)
  | unlove (id : String) (userId : String)
  deriving DecidableEq, Repr

/-- The collection left by a reaction request on motorcycles. -/
def LoveRequest.handle (motorcycles : List Motorcycle) : LoveRequest → List Motorcycle
  | .love id userId freshId => (putLove motorcycles id userId freshId).2
  | .unlove id userId => (putUnlove motorcycles id userId).2

/-- The collection left by a sequence of reaction requests on motorcycles. -/
def handleLoveRequests (motorcycles : List Motorcycle) (reqs : List LoveRequest) :
    List Motorcycle :=
  reqs.foldl LoveRequest.handle motorcycles

/-- The `_id` of the first reaction of the examples. -/
def idR1 : ObjectId := ⟨"111111111111111111111111"⟩

/-- The `_id` of the second reaction of the examples. -/
def idR2 : ObjectId := ⟨"222222222222222222222222"⟩

/-! ## Auxiliary facts on the array primitives -/

theorem filter_length_pos_iff {α : Type} (p : α → Bool) (xs : List α) :
    (xs.filter p).length > 0 ↔ ∃ x ∈ xs, p x = true := by
  induction xs with
  | nil => simp
  | cons a as ih =>
    by_cases h : p a = true
    · simp [List.filter_cons, h]
    · simp only [List.filter_cons, h, Bool.false_eq_true, ↓reduceIte, List.mem_cons,
        exists_eq_or_imp, false_or]
      exact ih

theorem filter_length_zero_iff {α : Type} (p : α → Bool) (xs : List α) :
    (xs.filter p).length = 0 ↔ ¬ ∃ x ∈ xs, p x = true := by
  rw [← filter_length_pos_iff]
  omega

/-- A list with an element mapped to `u` splits at the first such element. -/
theorem exists_first_split {α : Type} (f : α → String) (u : String) (xs : List α)
    (h : ∃ x ∈ xs, f x = u) :
    ∃ pre d post, xs = pre ++ d :: post ∧ (∀ x ∈ pre, f x ≠ u) ∧ f d = u := by
  induction xs with
  | nil => simp at h
  | cons a as ih =>
    by_cases ha : f a = u
    · exact ⟨[], a, as, rfl, by simp, ha⟩
    · have h' : ∃ x ∈ as, f x = u := by
        obtain ⟨x, hx, hxu⟩ := h
        rcases List.mem_cons.1 hx with rfl | hx
        · exact absurd hxu ha
        · exact ⟨x, hx, hxu⟩
      obtain ⟨pre, d, post, rfl, hpre, hd⟩ := ih h'
      refine ⟨a :: pre, d, post, rfl, ?_, hd⟩
      intro x hx
      rcases List.mem_cons.1 hx with rfl | hx
      · exact ha
      · exact hpre x hx

theorem list_indexOf_first_split {α : Type} (f : α → String) (u : String)
    (pre : List α) (d : α) (post : List α)
    (hpre : ∀ x ∈ pre, f x ≠ u) (hd : f d = u) :
    List.indexOf u ((pre ++ d :: post).map f) = pre.length := by
  induction pre with
  | nil => simp [hd]
  | cons a as ih =>
    have ha : f a ≠ u := hpre a (by simp)
    simp only [List.cons_append, List.map_cons, List.length_cons]
    rw [List.indexOf_cons_ne _ ha, ih (fun x hx => hpre x (by simp [hx]))]

theorem indexOf_first_split {α : Type} (f : α → String) (u : String)
    (pre : List α) (d : α) (post : List α)
    (hpre : ∀ x ∈ pre, f x ≠ u) (hd : f d = u) :
    indexOf ((pre ++ d :: post).map f) u = (pre.length : Int) := by
  have hmem : u ∈ (pre ++ d :: post).map f := by
    simp only [List.map_append, List.map_cons, List.mem_append, List.mem_map, List.mem_cons]
    exact Or.inr (Or.inl hd.symm)
  unfold indexOf
  rw [if_pos hmem, list_indexOf_first_split f u pre d post hpre hd]

theorem splice_first_split {α : Type} (pre : List α) (d : α) (post : List α) :
    splice (pre ++ d :: post) (pre.length : Int) 1 = pre ++ post := by
  have h0 : ¬ ((pre.length : Int) < 0) := by omega
  simp only [splice, h0, ↓reduceIte, Int.toNat_ofNat, List.length_append, List.length_cons]
  have h1 : min pre.length (pre.length + (post.length + 1)) = pre.length := by omega
  have h2 : min 1 (pre.length + (post.length + 1) - pre.length) = 1 := by omega
  rw [h1, h2]
  simp [List.take_append_eq_append_take, List.drop_append_eq_append_drop]

theorem splice_first_split_eq {α : Type} (pre : List α) (d : α) (rest xs : List α)
    (h : xs = pre ++ d :: rest) : splice xs (pre.length : Int) 1 = pre ++ rest := by
  rw [h]
  exact splice_first_split pre d rest

/-- The removal used by `unlike`, `unlove` and the comment deletion: when some
element is mapped to `u`, the element spliced out is the first such one. -/
theorem splice_indexOf {α : Type} (f : α → String) (u : String) (xs : List α)
    (h : ∃ x ∈ xs, f x = u) :
    ∃ pre d post, xs = pre ++ d :: post ∧ (∀ x ∈ pre, f x ≠ u) ∧ f d = u ∧
      indexOf (xs.map f) u = (pre.length : Int) ∧
      splice xs (indexOf (xs.map f) u) 1 = pre ++ post := by
  obtain ⟨pre, d, post, rfl, hpre, hd⟩ := exists_first_split f u xs h
  refine ⟨pre, d, post, rfl, hpre, hd, indexOf_first_split f u pre d post hpre hd, ?_⟩
  rw [indexOf_first_split f u pre d post hpre hd]
  exact splice_first_split pre d post

/-! ## Auxiliary facts on the string primitives -/

theorem splitChars_ne_nil (sep : Char) (cs : List Char) : splitChars sep cs ≠ [] := by
  cases cs with
  | nil => simp [splitChars]
  | cons c cs =>
    by_cases h : c = sep
    · simp [splitChars, h]
    · simp only [splitChars, h, ↓reduceIte]
      split <;> simp

theorem splitChars_length (sep : Char) (cs : List Char) :
    (splitChars sep cs).length = cs.count sep + 1 := by
  induction cs with
  | nil => simp [splitChars]
  | cons c cs ih =>
    by_cases h : c = sep
    · simp [splitChars, h, ih]
    · have hc : (c :: cs).count sep = cs.count sep := by
        rw [List.count_cons]
        simp [h]
      rw [hc, ← ih]
      simp only [splitChars, h, ↓reduceIte]
      split
      · rename_i hnil
        exact absurd hnil (splitChars_ne_nil sep cs)
      · rename_i piece pieces hcons
        simp [hcons]

theorem splitChars_intercalate (sep : Char) (cs : List Char) :
    List.intercalate [sep] (splitChars sep cs) = cs := by
  induction cs with
  | nil => simp [splitChars, List.intercalate, List.intersperse]
  | cons c cs ih =>
    by_cases h : c = sep
    · simp only [splitChars, h, ↓reduceIte]
      cases hs : splitChars sep cs with
      | nil => exact absurd hs (splitChars_ne_nil sep cs)
      | cons piece pieces =>
        rw [hs] at ih
        simp only [List.intercalate] at ih ⊢
        simp only [List.intersperse, List.flatten_cons, List.nil_append,
          List.singleton_append, ih]
    · simp only [splitChars, h, ↓reduceIte]
      cases hs : splitChars sep cs with
      | nil => exact absurd hs (splitChars_ne_nil sep cs)
      | cons piece pieces =>
        rw [hs] at ih
        simp only [List.intercalate] at ih ⊢
        cases pieces with
        | nil =>
          simp only [List.intersperse, List.flatten_cons, List.flatten_nil,
            List.append_nil] at ih ⊢
          rw [ih]
        | cons q qs =>
          simp only [List.intersperse, List.flatten_cons, List.cons_append] at ih ⊢
          rw [ih]

theorem splitChars_no_sep (sep : Char) (cs : List Char) :
    ∀ piece ∈ splitChars sep cs, sep ∉ piece := by
  induction cs with
  | nil => simp [splitChars]
  | cons c cs ih =>
    by_cases h : c = sep
    · simp only [splitChars, h, ↓reduceIte, List.mem_cons]
      rintro piece (rfl | hp)
      · simp
      · exact ih piece hp
    · simp only [splitChars, h, ↓reduceIte]
      cases hs : splitChars sep cs with
      | nil => exact absurd hs (splitChars_ne_nil sep cs)
      | cons q qs =>
        rw [hs] at ih
        simp only [List.mem_cons]
        rintro piece (rfl | hp)
        · intro hmem
          rcases List.mem_cons.1 hmem with hsc | hq
          · exact h hsc.symm
          · exact ih q (by simp) hq
        · exact ih piece (by simp [hp])

theorem dropWhile_head_not (p : Char → Bool) (l : List Char) (c : Char)
    (h : (l.dropWhile p).head? = some c) : p c = false := by
  have := List.head?_dropWhile_not p l
  rw [h] at this
  exact this

/-- What `trim` leaves of a string: the string is white space, then the result,
then white space, and the result neither starts nor ends with white space. -/
theorem trim_spec (s : String) :
    ∃ pre suf, s.data = pre ++ (trim s).data ++ suf ∧
      (∀ c ∈ pre, isWhiteSpace c = true) ∧ (∀ c ∈ suf, isWhiteSpace c = true) ∧
      (∀ c, (trim s).data.head? = some c → isWhiteSpace c = false) ∧
      (∀ c, (trim s).data.getLast? = some c → isWhiteSpace c = false) := by
  have hm : (s.data.dropWhile isWhiteSpace) =
      (trim s).data ++ ((s.data.dropWhile isWhiteSpace).reverse.takeWhile isWhiteSpace).reverse := by
    have h := List.takeWhile_append_dropWhile isWhiteSpace
      (s.data.dropWhile isWhiteSpace).reverse
    have h' := congrArg List.reverse h
    simp only [List.reverse_append, List.reverse_reverse] at h'
    exact h'.symm
  refine ⟨s.data.takeWhile isWhiteSpace,
    ((s.data.dropWhile isWhiteSpace).reverse.takeWhile isWhiteSpace).reverse, ?_, ?_, ?_, ?_, ?_⟩
  · rw [List.append_assoc, ← hm, List.takeWhile_append_dropWhile]
  · intro c hc
    exact List.mem_takeWhile_imp hc
  · intro c hc
    exact List.mem_takeWhile_imp (List.mem_reverse.1 hc)
  · intro c hc
    apply dropWhile_head_not isWhiteSpace s.data c
    rw [hm, List.head?_append, hc]
    rfl
  · intro c hc
    apply dropWhile_head_not isWhiteSpace (s.data.dropWhile isWhiteSpace).reverse c
    have : (trim s).data =
        ((s.data.dropWhile isWhiteSpace).reverse.dropWhile isWhiteSpace).reverse := rfl
    rw [this, List.getLast?_reverse] at hc
    exact hc

/-! ## Auxiliary facts on the store operations -/

theorem findById_ok {α : Type} (oid : α → ObjectId) (docs : List α) (id : String) (r : Option α)
    (h : findById oid docs id = .ok r) :
    isValidObjectId id = true ∧
      r = docs.find? (fun d => (oid d).toString == canonical id) := by
  unfold findById at h
  split at h
  · rename_i hv
    exact ⟨hv, by cases h; rfl⟩
  · cases h

theorem findById_mem {α : Type} (oid : α → ObjectId) (docs : List α) (id : String) (doc : α)
    (h : findById oid docs id = .ok (some doc)) :
    doc ∈ docs ∧ (oid doc).toString = canonical id := by
  obtain ⟨_, hf⟩ := findById_ok oid docs id _ h
  have hf' := hf.symm
  refine ⟨List.mem_of_find?_eq_some hf', ?_⟩
  have := List.find?_some hf'
  simpa using this

theorem mem_save {α : Type} (oid : α → ObjectId) (docs : List α) (doc x : α)
    (h : x ∈ save oid docs doc) : x ∈ docs ∨ x = doc := by
  unfold save at h
  obtain ⟨d, hd, hx⟩ := List.mem_map.1 h
  by_cases hc : oid d = oid doc
  · rw [if_pos hc] at hx
    exact Or.inr hx.symm
  · rw [if_neg hc] at hx
    exact Or.inl (hx ▸ hd)

theorem find?_save {α : Type} (oid : α → ObjectId) (id : String) (doc doc' : α)
    (hid : oid doc' = oid doc) (docs : List α)
    (h : docs.find? (fun d => (oid d).toString == id) = some doc) :
    (save oid docs doc').find? (fun d => (oid d).toString == id) = some doc' := by
  have hdoc : (oid doc).toString = id := by
    have := List.find?_some h
    simpa using this
  induction docs with
  | nil => simp at h
  | cons a as ih =>
    by_cases ha : (oid a).toString = id
    · have hfa : List.find? (fun d => (oid d).toString == id) (a :: as) = some a := by
        simp [List.find?_cons, ha]
      have hadoc : a = doc := by
        rw [hfa] at h
        exact Option.some.inj h
      have hoid : oid a = oid doc' := by rw [hadoc, hid]
      have hp' : (oid doc').toString = id := by rw [hid]; exact hdoc
      simp [save, List.find?_cons, hoid, hp']
    · have hne : oid a ≠ oid doc' := by
        intro hc
        apply ha
        rw [hc, hid]
        exact hdoc
      have hrest : List.find? (fun d => (oid d).toString == id) as = some doc := by
        simpa [List.find?_cons, ha] using h
      have := ih hrest
      simp only [save] at this
      simp [save, List.find?_cons, hne, ha, this]

/-- A document saved over the one that `findById` yields is what `findById`
yields afterwards. -/
theorem findById_save {α : Type} (oid : α → ObjectId) (docs : List α) (id : String)
    (doc doc' : α) (hid : oid doc' = oid doc)
    (h : findById oid docs id = .ok (some doc)) :
    findById oid (save oid docs doc') id = .ok (some doc') := by
  obtain ⟨hv, hf⟩ := findById_ok oid docs id _ h
  unfold findById
  rw [if_pos hv, find?_save oid (canonical id) doc doc' hid docs hf.symm]

/-! ## The reaction routes on a loaded document -/

theorem exists_user_iff (reactions : List Reaction) (userId : String) :
    (∃ x ∈ reactions, (fun r : Reaction => r.user.toString == userId) x = true) ↔
      ∃ r ∈ reactions, r.user.toString = userId := by
  simp

theorem putLike_present (posts : List Post) (id userId : String) (freshId : ObjectId)
    (post : Post) (hp : findById Post._id posts id = .ok (some post))
    (h : ∃ r ∈ post.likes, r.user.toString = userId) :
    putLike posts id userId freshId = (.message 400 "User already liked this post", posts) := by
  have hpos := (filter_length_pos_iff _ _).2 ((exists_user_iff post.likes userId).2 h)
  simp only [putLike, hp]
  rw [if_pos hpos]

theorem putLike_absent (posts : List Post) (id userId : String) (freshId : ObjectId)
    (post : Post) (hp : findById Post._id posts id = .ok (some post))
    (h : ¬ ∃ r ∈ post.likes, r.user.toString = userId) :
    putLike posts id userId freshId =
      (.json 200 ({ _id := freshId, user := castObjectId userId } :: post.likes),
        save Post._id posts
          { post with likes := { _id := freshId, user := castObjectId userId } :: post.likes }) := by
  have hpos : ¬ (post.likes.filter (fun r => r.user.toString == userId)).length > 0 :=
    fun hc => h ((exists_user_iff post.likes userId).1 ((filter_length_pos_iff _ _).1 hc))
  simp only [putLike, hp]
  rw [if_neg hpos]

theorem putUnlike_absent (posts : List Post) (id userId : String)
    (post : Post) (hp : findById Post._id posts id = .ok (some post))
    (h : ¬ ∃ r ∈ post.likes, r.user.toString = userId) :
    putUnlike posts id userId = (.message 400 "User has not liked post yet", posts) := by
  have hz : (post.likes.filter (fun r => r.user.toString == userId)).length = 0 :=
    (filter_length_zero_iff _ _).2 (fun hc => h ((exists_user_iff post.likes userId).1 hc))
  simp only [putUnlike, hp]
  rw [if_pos hz]

theorem putUnlike_present (posts : List Post) (id userId : String)
    (post : Post) (hp : findById Post._id posts id = .ok (some post))
    (h : ∃ r ∈ post.likes, r.user.toString = userId) :
    ∃ pre removed rest, post.likes = pre ++ removed :: rest ∧
      (∀ r ∈ pre, r.user.toString ≠ userId) ∧ removed.user.toString = userId ∧
      putUnlike posts id userId =
        (.json 200 (pre ++ rest), save Post._id posts { post with likes := pre ++ rest }) := by
  obtain ⟨pre, removed, rest, hsplit, hpre, hrem, _, hspl⟩ :=
    splice_indexOf (fun r : Reaction => r.user.toString) userId post.likes h
  have hz : ¬ (post.likes.filter (fun r => r.user.toString == userId)).length = 0 :=
    fun hc => (filter_length_zero_iff _ _).1 hc ((exists_user_iff post.likes userId).2 h)
  refine ⟨pre, removed, rest, hsplit, hpre, hrem, ?_⟩
  simp only [putUnlike, hp]
  rw [if_neg hz, hspl]

theorem putLove_present (motorcycles : List Motorcycle) (id userId : String)
    (freshId : ObjectId) (motorcycle : Motorcycle)
    (hp : findById Motorcycle._id motorcycles id = .ok (some motorcycle))
    (h : ∃ r ∈ motorcycle.loves, r.user.toString = userId) :
    putLove motorcycles id userId freshId =
      (.message 400 "User already loved this post", motorcycles) := by
  have hpos := (filter_length_pos_iff _ _).2 ((exists_user_iff motorcycle.loves userId).2 h)
  simp only [putLove, hp]
  rw [if_pos hpos]

theorem putLove_absent (motorcycles : List Motorcycle) (id userId : String)
    (freshId : ObjectId) (motorcycle : Motorcycle)
    (hp : findById Motorcycle._id motorcycles id = .ok (some motorcycle))
    (h : ¬ ∃ r ∈ motorcycle.loves, r.user.toString = userId) :
    putLove motorcycles id userId freshId =
      (.json 200 ({ _id := freshId, user := castObjectId userId } :: motorcycle.loves),
        save Motorcycle._id motorcycles
          { motorcycle with
            loves := { _id := freshId, user := castObjectId userId } :: motorcycle.loves }) := by
  have hpos : ¬ (motorcycle.loves.filter (fun r => r.user.toString == userId)).length > 0 :=
    fun hc => h ((exists_user_iff motorcycle.loves userId).1 ((filter_length_pos_iff _ _).1 hc))
  simp only [putLove, hp]
  rw [if_neg hpos]

theorem putUnlove_absent (motorcycles : List Motorcycle) (id userId : String)
    (motorcycle : Motorcycle)
    (hp : findById Motorcycle._id motorcycles id = .ok (some motorcycle))
    (h : ¬ ∃ r ∈ motorcycle.loves, r.user.toString = userId) :
    putUnlove motorcycles id userId =
      (.message 400 "User has not loved motorcycle yet", motorcycles) := by
  have hz : (motorcycle.loves.filter (fun r => r.user.toString == userId)).length = 0 :=
    (filter_length_zero_iff _ _).2
      (fun hc => h ((exists_user_iff motorcycle.loves userId).1 hc))
  simp only [putUnlove, hp]
  rw [if_pos hz]

theorem putUnlove_present (motorcycles : List Motorcycle) (id userId : String)
    (motorcycle : Motorcycle)
    (hp : findById Motorcycle._id motorcycles id = .ok (some motorcycle))
    (h : ∃ r ∈ motorcycle.loves, r.user.toString = userId) :
    ∃ pre removed rest, motorcycle.loves = pre ++ removed :: rest ∧
      (∀ r ∈ pre, r.user.toString ≠ userId) ∧ removed.user.toString = userId ∧
      putUnlove motorcycles id userId =
        (.json 200 (pre ++ rest),
          save Motorcycle._id motorcycles { motorcycle with loves := pre ++ rest }) := by
  obtain ⟨pre, removed, rest, hsplit, hpre, hrem, _, hspl⟩ :=
    splice_indexOf (fun r : Reaction => r.user.toString) userId motorcycle.loves h
  have hz : ¬ (motorcycle.loves.filter (fun r => r.user.toString == userId)).length = 0 :=
    fun hc => (filter_length_zero_iff _ _).1 hc ((exists_user_iff motorcycle.loves userId).2 h)
  refine ⟨pre, removed, rest, hsplit, hpre, hrem, ?_⟩
  simp only [putUnlove, hp]
  rw [if_neg hz, hspl]

/-! ## Deleting a post or a motorcycle -/

/-- C1: deleting a stored post or motorcycle on behalf of a user whose identifier
differs from the string of the owning-user reference is answered with status 401,
and the collection is left exactly as it was, so the target is still what the
store yields for its identifier. -/
theorem delete_unauthorized (id userId : String) :
    (∀ (posts : List Post) (post : Post),
      findById Post._id posts id = .ok (some post) → post.user.toString ≠ userId →
        (deletePost posts id userId).1.status = 401 ∧
        (deletePost posts id userId).2 = posts ∧
        findById Post._id (deletePost posts id userId).2 id = .ok (some post)) ∧
    (∀ (motorcycles : List Motorcycle) (motorcycle : Motorcycle),
      findById Motorcycle._id motorcycles id = .ok (some motorcycle) →
      motorcycle.user.toString ≠ userId →
        (deleteMotorcycle motorcycles id userId).1.status = 401 ∧
        (deleteMotorcycle motorcycles id userId).2 = motorcycles ∧
        findById Motorcycle._id (deleteMotorcycle motorcycles id userId).2 id =
          .ok (some motorcycle)) := by
  constructor
  · intro posts post hp hu
    have h : deletePost posts id userId =
        (.message 401
          "User not authorized to delete this post, kindly exit this platform! ", posts) := by
      simp only [deletePost, hp]
      rw [if_pos hu]
    rw [h]
    exact ⟨rfl, rfl, hp⟩
  · intro motorcycles motorcycle hp hu
    have h : deleteMotorcycle motorcycles id userId =
        (.message 401
          "User not authorized to delete this motorcycle posting, kindly exit this platform! ",
          motorcycles) := by
      simp only [deleteMotorcycle, hp]
      rw [if_pos hu]
    rw [h]
    exact ⟨rfl, rfl, hp⟩

theorem delete_unauthorized_witness :
    ((deletePost [postP] idP idB).1.status = 401 ∧ (deletePost [postP] idP idB).2 = [postP] ∧
      findById Post._id (deletePost [postP] idP idB).2 idP = .ok (some postP)) ∧
    ((deleteMotorcycle [motoM] idM idB).1.status = 401 ∧
      (deleteMotorcycle [motoM] idM idB).2 = [motoM] ∧
      findById Motorcycle._id (deleteMotorcycle [motoM] idM idB).2 idM = .ok (some motoM)) :=
  ⟨(delete_unauthorized idP idB).1 [postP] postP (by decide) (by decide),
   (delete_unauthorized idM idB).2 [motoM] motoM (by decide) (by decide)⟩

/-! ## Deleting a comment -/

/-- C2: on a loaded post, when no comment carries the requested identifier the
deletion is answered with status 404, and when the comment with that identifier
is authored by someone other than the requesting user it is answered with status
401; in both cases nothing is saved, so the comment list is as it was. -/
theorem deleteComment_rejects (posts : List Post) (id comment_id userId : String)
    (post : Post) (hp : findById Post._id posts id = .ok (some post)) :
    ((∀ c ∈ post.comments, c.id ≠ comment_id) →
      deleteComment posts id comment_id userId =
        (.message 404 "Comment does not exist", posts)) ∧
    (∀ comment, post.comments.find? (fun c => c.id == comment_id) = some comment →
      comment.user.toString ≠ userId →
      deleteComment posts id comment_id userId =
        (.message 401 "User not authorized to delete this comment", posts)) := by
  constructor
  · intro hnone
    have hf : post.comments.find? (fun c => c.id == comment_id) = none := by
      rw [List.find?_eq_none]
      intro c hc
      simpa using hnone c hc
    simp only [deleteComment, hp, hf]
  · intro comment hf hu
    simp only [deleteComment, hp, hf]
    rw [if_pos hu]

theorem deleteComment_rejects_witness :
    deleteComment postsTwoComments idP "000000000000000000000000" idA =
        (.message 404 "Comment does not exist", postsTwoComments) ∧
    deleteComment postsTwoComments idP idC1.toString idB =
        (.message 401 "User not authorized to delete this comment", postsTwoComments) :=
  ⟨(deleteComment_rejects postsTwoComments idP "000000000000000000000000" idA
      { postP with comments := [commentC2, commentC1] } (by decide)).1 (by decide),
   (deleteComment_rejects postsTwoComments idP idC1.toString idB
      { postP with comments := [commentC2, commentC1] } (by decide)).2 commentC1
      (by decide) (by decide)⟩

/-- C3: on a loaded post, when the comment with the requested identifier is
authored by the requesting user, the deletion succeeds and what is saved and
sent is the comment list without its first comment authored by that user, all
other comments kept in order; that need not be the comment that was identified:
after one author added C1 and then C2, deleting C1 leaves `[C1]`. -/
theorem deleteComment_removes_first_authored (posts : List Post)
    (id comment_id userId : String) (post : Post) (comment : Comment)
    (hp : findById Post._id posts id = .ok (some post))
    (hc : post.comments.find? (fun c => c.id == comment_id) = some comment)
    (hu : comment.user.toString = userId) :
    (∃ pre removed rest, post.comments = pre ++ removed :: rest ∧
      (∀ c ∈ pre, c.user.toString ≠ userId) ∧ removed.user.toString = userId ∧
      deleteComment posts id comment_id userId =
        (.json 200 (pre ++ rest),
          save Post._id posts { post with comments := pre ++ rest }) ∧
      findById Post._id (deleteComment posts id comment_id userId).2 id =
        .ok (some { post with comments := pre ++ rest })) ∧
    deleteComment postsTwoComments idP commentC1.id idA =
      (.json 200 [commentC1], [{ postP with comments := [commentC1] }]) := by
  refine ⟨?_, by decide⟩
  have hex : ∃ c ∈ post.comments, (fun c : Comment => c.user.toString) c = userId :=
    ⟨comment, List.mem_of_find?_eq_some hc, hu⟩
  obtain ⟨pre, removed, rest, hsplit, hpre, hrem, _, hspl⟩ :=
    splice_indexOf (fun c : Comment => c.user.toString) userId post.comments hex
  have hres : deleteComment posts id comment_id userId =
      (.json 200 (pre ++ rest),
        save Post._id posts { post with comments := pre ++ rest }) := by
    simp only [deleteComment, hp, hc]
    rw [if_neg (by simpa using hu), hspl]
  refine ⟨pre, removed, rest, hsplit, hpre, hrem, hres, ?_⟩
  rw [hres]
  exact findById_save Post._id posts id post _ rfl hp

theorem deleteComment_removes_first_authored_witness :
    ∃ pre removed rest, [commentC2, commentB, commentC1] = pre ++ removed :: rest ∧
      (∀ c ∈ pre, c.user.toString ≠ idA) ∧ removed.user.toString = idA ∧
      deleteComment [{ postP with comments := [commentC2, commentB, commentC1] }] idP
          commentC1.id idA =
        (.json 200 (pre ++ rest),
          save Post._id [{ postP with comments := [commentC2, commentB, commentC1] }]
            { postP with comments := pre ++ rest }) ∧
      findById Post._id
          (deleteComment [{ postP with comments := [commentC2, commentB, commentC1] }] idP
            commentC1.id idA).2 idP =
        .ok (some { postP with comments := pre ++ rest }) :=
  (deleteComment_removes_first_authored
    [{ postP with comments := [commentC2, commentB, commentC1] }] idP commentC1.id idA
    { postP with comments := [commentC2, commentB, commentC1] } commentC1
    (by decide) (by decide) (by decide)).1

/-! ## Adding and removing a reaction -/

/-- C4: on a loaded post or motorcycle whose reaction list already holds an entry
of the user, like / love is answered with status 400 and nothing is saved; and
after a like / love that succeeded, a second one for the same document and user
is answered with status 400 and leaves the collection as the first call left
it. -/
theorem addReaction_rejects_readd (id userId : String) (freshId freshId' : ObjectId) :
    (∀ (posts : List Post) (post : Post), findById Post._id posts id = .ok (some post) →
      ((∃ r ∈ post.likes, r.user.toString = userId) →
        putLike posts id userId freshId =
          (.message 400 "User already liked this post", posts)) ∧
      ((putLike posts id userId freshId).1.status = 200 →
        putLike (putLike posts id userId freshId).2 id userId freshId' =
          (.message 400 "User already liked this post",
            (putLike posts id userId freshId).2))) ∧
    (∀ (motorcycles : List Motorcycle) (motorcycle : Motorcycle),
      findById Motorcycle._id motorcycles id = .ok (some motorcycle) →
      ((∃ r ∈ motorcycle.loves, r.user.toString = userId) →
        putLove motorcycles id userId freshId =
          (.message 400 "User already loved this post", motorcycles)) ∧
      ((putLove motorcycles id userId freshId).1.status = 200 →
        putLove (putLove motorcycles id userId freshId).2 id userId freshId' =
          (.message 400 "User already loved this post",
            (putLove motorcycles id userId freshId).2))) := by
  constructor
  · intro posts post hp
    refine ⟨putLike_present posts id userId freshId post hp, ?_⟩
    intro hok
    by_cases h : ∃ r ∈ post.likes, r.user.toString = userId
    · rw [putLike_present posts id userId freshId post hp h] at hok
      simp [Reply.status] at hok
    · rw [putLike_absent posts id userId freshId post hp h]
      exact putLike_present _ id userId freshId' _
        (findById_save Post._id posts id post _ rfl hp)
        ⟨{ _id := freshId, user := castObjectId userId }, by simp, rfl⟩
  · intro motorcycles motorcycle hp
    refine ⟨putLove_present motorcycles id userId freshId motorcycle hp, ?_⟩
    intro hok
    by_cases h : ∃ r ∈ motorcycle.loves, r.user.toString = userId
    · rw [putLove_present motorcycles id userId freshId motorcycle hp h] at hok
      simp [Reply.status] at hok
    · rw [putLove_absent motorcycles id userId freshId motorcycle hp h]
      exact putLove_present _ id userId freshId' _
        (findById_save Motorcycle._id motorcycles id motorcycle _ rfl hp)
        ⟨{ _id := freshId, user := castObjectId userId }, by simp, rfl⟩

theorem addReaction_rejects_readd_witness :
    (putLike [{ postP with likes := [⟨idR1, ⟨idB⟩⟩] }] idP idB idR2 =
        (.message 400 "User already liked this post",
          [{ postP with likes := [⟨idR1, ⟨idB⟩⟩] }]) ∧
      putLike (putLike [postP] idP idB idR1).2 idP idB idR2 =
        (.message 400 "User already liked this post", (putLike [postP] idP idB idR1).2)) ∧
    (putLove [{ motoM with loves := [⟨idR1, ⟨idB⟩⟩] }] idM idB idR2 =
        (.message 400 "User already loved this post",
          [{ motoM with loves := [⟨idR1, ⟨idB⟩⟩] }]) ∧
      putLove (putLove [motoM] idM idB idR1).2 idM idB idR2 =
        (.message 400 "User already loved this post", (putLove [motoM] idM idB idR1).2)) :=
  ⟨⟨((addReaction_rejects_readd idP idB idR2 idR2).1
        [{ postP with likes := [⟨idR1, ⟨idB⟩⟩] }] { postP with likes := [⟨idR1, ⟨idB⟩⟩] }
        (by decide)).1 (by decide),
    ((addReaction_rejects_readd idP idB idR1 idR2).1 [postP] postP (by decide)).2
        (by decide)⟩,
   ⟨((addReaction_rejects_readd idM idB idR2 idR2).2
        [{ motoM with loves := [⟨idR1, ⟨idB⟩⟩] }] { motoM with loves := [⟨idR1, ⟨idB⟩⟩] }
        (by decide)).1 (by decide),
    ((addReaction_rejects_readd idM idB idR1 idR2).2 [motoM] motoM (by decide)).2
        (by decide)⟩⟩

/-- C5: on a loaded post or motorcycle, unlike / unlove is answered with status
400 exactly when no entry of the reaction list has a user reference whose string
equals the user, and then nothing is saved. -/
theorem removeReaction_fails_iff_absent (id userId : String) :
    (∀ (posts : List Post) (post : Post), findById Post._id posts id = .ok (some post) →
      ((putUnlike posts id userId).1.status = 400 ↔
        ¬ ∃ r ∈ post.likes, r.user.toString = userId) ∧
      ((putUnlike posts id userId).1.status = 400 →
        putUnlike posts id userId = (.message 400 "User has not liked post yet", posts))) ∧
    (∀ (motorcycles : List Motorcycle) (motorcycle : Motorcycle),
      findById Motorcycle._id motorcycles id = .ok (some motorcycle) →
      ((putUnlove motorcycles id userId).1.status = 400 ↔
        ¬ ∃ r ∈ motorcycle.loves, r.user.toString = userId) ∧
      ((putUnlove motorcycles id userId).1.status = 400 →
        putUnlove motorcycles id userId =
          (.message 400 "User has not loved motorcycle yet", motorcycles))) := by
  constructor
  · intro posts post hp
    have key : (putUnlike posts id userId).1.status = 400 →
        ¬ ∃ r ∈ post.likes, r.user.toString = userId := by
      intro hst h
      obtain ⟨pre, removed, rest, _, _, _, hres⟩ := putUnlike_present posts id userId post hp h
      rw [hres] at hst
      simp [Reply.status] at hst
    refine ⟨⟨key, fun h => ?_⟩, fun hst => putUnlike_absent posts id userId post hp (key hst)⟩
    rw [putUnlike_absent posts id userId post hp h]
    rfl
  · intro motorcycles motorcycle hp
    have key : (putUnlove motorcycles id userId).1.status = 400 →
        ¬ ∃ r ∈ motorcycle.loves, r.user.toString = userId := by
      intro hst h
      obtain ⟨pre, removed, rest, _, _, _, hres⟩ :=
        putUnlove_present motorcycles id userId motorcycle hp h
      rw [hres] at hst
      simp [Reply.status] at hst
    refine ⟨⟨key, fun h => ?_⟩,
      fun hst => putUnlove_absent motorcycles id userId motorcycle hp (key hst)⟩
    rw [putUnlove_absent motorcycles id userId motorcycle hp h]
    rfl

theorem removeReaction_fails_iff_absent_witness :
    (((putUnlike [postP] idP idB).1.status = 400 ↔
        ¬ ∃ r ∈ postP.likes, r.user.toString = idB) ∧
      ((putUnlike [postP] idP idB).1.status = 400 →
        putUnlike [postP] idP idB = (.message 400 "User has not liked post yet", [postP]))) ∧
    (((putUnlove [motoM] idM idB).1.status = 400 ↔
        ¬ ∃ r ∈ motoM.loves, r.user.toString = idB) ∧
      ((putUnlove [motoM] idM idB).1.status = 400 →
        putUnlove [motoM] idM idB =
          (.message 400 "User has not loved motorcycle yet", [motoM]))) :=
  ⟨(removeReaction_fails_iff_absent idP idB).1 [postP] postP (by decide),
   (removeReaction_fails_iff_absent idM idB).2 [motoM] motoM (by decide)⟩

theorem no_entry_after_removal (userId : String) (pre : List Reaction) (removed : Reaction)
    (rest : List Reaction) (hpre : ∀ r ∈ pre, r.user.toString ≠ userId)
    (hrem : removed.user.toString = userId) (hone : OnePerUser (pre ++ removed :: rest)) :
    ∀ r ∈ pre ++ rest, r.user.toString ≠ userId := by
  intro r hr
  rcases List.mem_append.1 hr with h | h
  · exact hpre r h
  · intro hru
    unfold OnePerUser at hone
    simp only [List.map_append, List.map_cons] at hone
    have hnd := (List.nodup_append.1 hone).2.1
    have hnot := (List.nodup_cons.1 hnd).1
    apply hnot
    rw [hrem, ← hru]
    exact List.mem_map.2 ⟨r, h, rfl⟩

/-- C6: on a loaded post or motorcycle whose reaction list holds an entry of the
user, unlike / unlove succeeds, and what is saved and sent is the list without
the first entry of that user: one element fewer, every other entry kept in
order, and no entry of the user left when the list held at most one entry per
user.  After B loved a motorcycle without loves, B's unlove leaves `[]`. -/
theorem removeReaction_removes_first (id userId : String) :
    (∀ (posts : List Post) (post : Post), findById Post._id posts id = .ok (some post) →
      (∃ r ∈ post.likes, r.user.toString = userId) →
      ∃ pre removed rest, post.likes = pre ++ removed :: rest ∧
        (∀ r ∈ pre, r.user.toString ≠ userId) ∧ removed.user.toString = userId ∧
        putUnlike posts id userId =
          (.json 200 (pre ++ rest), save Post._id posts { post with likes := pre ++ rest }) ∧
        (pre ++ rest).length + 1 = post.likes.length ∧
        (OnePerUser post.likes → ∀ r ∈ pre ++ rest, r.user.toString ≠ userId)) ∧
    (∀ (motorcycles : List Motorcycle) (motorcycle : Motorcycle),
      findById Motorcycle._id motorcycles id = .ok (some motorcycle) →
      (∃ r ∈ motorcycle.loves, r.user.toString = userId) →
      ∃ pre removed rest, motorcycle.loves = pre ++ removed :: rest ∧
        (∀ r ∈ pre, r.user.toString ≠ userId) ∧ removed.user.toString = userId ∧
        putUnlove motorcycles id userId =
          (.json 200 (pre ++ rest),
            save Motorcycle._id motorcycles { motorcycle with loves := pre ++ rest }) ∧
        (pre ++ rest).length + 1 = motorcycle.loves.length ∧
        (OnePerUser motorcycle.loves → ∀ r ∈ pre ++ rest, r.user.toString ≠ userId)) ∧
    ((putLove [motoM] idM idB idR1).1 = .json 200 [⟨idR1, ⟨idB⟩⟩] ∧
      putUnlove (putLove [motoM] idM idB idR1).2 idM idB = (.json 200 [], [motoM])) := by
  refine ⟨?_, ?_, by decide⟩
  · intro posts post hp h
    obtain ⟨pre, removed, rest, hsplit, hpre, hrem, hres⟩ :=
      putUnlike_present posts id userId post hp h
    refine ⟨pre, removed, rest, hsplit, hpre, hrem, hres, ?_, ?_⟩
    · rw [hsplit]
      simp only [List.length_append, List.length_cons]
      omega
    · intro hone
      rw [hsplit] at hone
      exact no_entry_after_removal userId pre removed rest hpre hrem hone
  · intro motorcycles motorcycle hp h
    obtain ⟨pre, removed, rest, hsplit, hpre, hrem, hres⟩ :=
      putUnlove_present motorcycles id userId motorcycle hp h
    refine ⟨pre, removed, rest, hsplit, hpre, hrem, hres, ?_, ?_⟩
    · rw [hsplit]
      simp only [List.length_append, List.length_cons]
      omega
    · intro hone
      rw [hsplit] at hone
      exact no_entry_after_removal userId pre removed rest hpre hrem hone

theorem removeReaction_removes_first_witness :
    (∃ pre removed rest, [(⟨idR2, ⟨idA⟩⟩ : Reaction), ⟨idR1, ⟨idB⟩⟩] = pre ++ removed :: rest ∧
        (∀ r ∈ pre, r.user.toString ≠ idB) ∧ removed.user.toString = idB ∧
        putUnlike [{ postP with likes := [⟨idR2, ⟨idA⟩⟩, ⟨idR1, ⟨idB⟩⟩] }] idP idB =
          (.json 200 (pre ++ rest),
            save Post._id [{ postP with likes := [⟨idR2, ⟨idA⟩⟩, ⟨idR1, ⟨idB⟩⟩] }]
              { postP with likes := pre ++ rest }) ∧
        (pre ++ rest).length + 1 = 2 ∧
        (OnePerUser [⟨idR2, ⟨idA⟩⟩, ⟨idR1, ⟨idB⟩⟩] →
          ∀ r ∈ pre ++ rest, r.user.toString ≠ idB)) ∧
    (∃ pre removed rest, [(⟨idR1, ⟨idB⟩⟩ : Reaction)] = pre ++ removed :: rest ∧
        (∀ r ∈ pre, r.user.toString ≠ idB) ∧ removed.user.toString = idB ∧
        putUnlove [{ motoM with loves := [⟨idR1, ⟨idB⟩⟩] }] idM idB =
          (.json 200 (pre ++ rest),
            save Motorcycle._id [{ motoM with loves := [⟨idR1, ⟨idB⟩⟩] }]
              { motoM with loves := pre ++ rest }) ∧
        (pre ++ rest).length + 1 = 1 ∧
        (OnePerUser [⟨idR1, ⟨idB⟩⟩] → ∀ r ∈ pre ++ rest, r.user.toString ≠ idB)) :=
  ⟨(removeReaction_removes_first idP idB).1
      [{ postP with likes := [⟨idR2, ⟨idA⟩⟩, ⟨idR1, ⟨idB⟩⟩] }]
      { postP with likes := [⟨idR2, ⟨idA⟩⟩, ⟨idR1, ⟨idB⟩⟩] } (by decide)
      ⟨⟨idR1, ⟨idB⟩⟩, by simp, rfl⟩,
   (removeReaction_removes_first idM idB).2.1
      [{ motoM with loves := [⟨idR1, ⟨idB⟩⟩] }] { motoM with loves := [⟨idR1, ⟨idB⟩⟩] }
      (by decide) ⟨⟨idR1, ⟨idB⟩⟩, by simp, rfl⟩⟩

/-! ## At most one reaction per user -/

theorem onePerUser_cons (reactions : List Reaction) (userId : String) (freshId : ObjectId)
    (h : ¬ ∃ r ∈ reactions, r.user.toString = userId) (hone : OnePerUser reactions) :
    OnePerUser ({ _id := freshId, user := castObjectId userId } :: reactions) := by
  unfold OnePerUser at *
  simp only [List.map_cons, List.nodup_cons]
  refine ⟨?_, hone⟩
  intro hmem
  obtain ⟨r, hr, hru⟩ := List.mem_map.1 hmem
  exact h ⟨r, hr, hru⟩

theorem onePerUser_remove (pre : List Reaction) (removed : Reaction) (rest : List Reaction)
    (hone : OnePerUser (pre ++ removed :: rest)) : OnePerUser (pre ++ rest) := by
  unfold OnePerUser at *
  have hsub : List.Sublist (pre ++ rest) (pre ++ removed :: rest) :=
    List.Sublist.append_left (List.sublist_cons_self removed rest) pre
  exact List.Nodup.sublist (List.Sublist.map _ hsub) hone

theorem likeRequest_preserves (posts : List Post) (req : LikeRequest)
    (hinv : ∀ p ∈ posts, OnePerUser p.likes) :
    ∀ p ∈ req.handle posts, OnePerUser p.likes := by
  cases req with
  | like id userId freshId =>
    simp only [LikeRequest.handle]
    cases hf : findById Post._id posts id with
    | error e => simpa [putLike, hf] using hinv
    | ok found =>
      cases found with
      | none => simpa [putLike, hf] using hinv
      | some post =>
        have hpost := (findById_mem Post._id posts id post hf).1
        by_cases h : ∃ r ∈ post.likes, r.user.toString = userId
        · rw [putLike_present posts id userId freshId post hf h]
          exact hinv
        · rw [putLike_absent posts id userId freshId post hf h]
          intro p hp
          rcases mem_save Post._id posts _ p hp with hp | hp
          · exact hinv p hp
          · rw [hp]
            exact onePerUser_cons post.likes userId freshId h (hinv post hpost)
  | unlike id userId =>
    simp only [LikeRequest.handle]
    cases hf : findById Post._id posts id with
    | error e => simpa [putUnlike, hf] using hinv
    | ok found =>
      cases found with
      | none => simpa [putUnlike, hf] using hinv
      | some post =>
        have hpost := (findById_mem Post._id posts id post hf).1
        by_cases h : ∃ r ∈ post.likes, r.user.toString = userId
        · obtain ⟨pre, removed, rest, hsplit, _, _, hres⟩ :=
            putUnlike_present posts id userId post hf h
          rw [hres]
          intro p hp
          rcases mem_save Post._id posts _ p hp with hp | hp
          · exact hinv p hp
          · rw [hp]
            have := hinv post hpost
            rw [hsplit] at this
            exact onePerUser_remove pre removed rest this
        · rw [putUnlike_absent posts id userId post hf h]
          exact hinv

theorem loveRequest_preserves (motorcycles : List Motorcycle) (req : LoveRequest)
    (hinv : ∀ m ∈ motorcycles, OnePerUser m.loves) :
    ∀ m ∈ req.handle motorcycles, OnePerUser m.loves := by
  cases req with
  | love id userId freshId =>
    simp only [LoveRequest.handle]
    cases hf : findById Motorcycle._id motorcycles id with
    | error e => simpa [putLove, hf] using hinv
    | ok found =>
      cases found with
      | none => simpa [putLove, hf] using hinv
      | some motorcycle =>
        have hmoto := (findById_mem Motorcycle._id motorcycles id motorcycle hf).1
        by_cases h : ∃ r ∈ motorcycle.loves, r.user.toString = userId
        · rw [putLove_present motorcycles id userId freshId motorcycle hf h]
          exact hinv
        · rw [putLove_absent motorcycles id userId freshId motorcycle hf h]
          intro m hm
          rcases mem_save Motorcycle._id motorcycles _ m hm with hm | hm
          · exact hinv m hm
          · rw [hm]
            exact onePerUser_cons motorcycle.loves userId freshId h (hinv motorcycle hmoto)
  | unlove id userId =>
    simp only [LoveRequest.handle]
    cases hf : findById Motorcycle._id motorcycles id with
    | error e => simpa [putUnlove, hf] using hinv
    | ok found =>
      cases found with
      | none => simpa [putUnlove, hf] using hinv
      | some motorcycle =>
        have hmoto := (findById_mem Motorcycle._id motorcycles id motorcycle hf).1
        by_cases h : ∃ r ∈ motorcycle.loves, r.user.toString = userId
        · obtain ⟨pre, removed, rest, hsplit, _, _, hres⟩ :=
            putUnlove_present motorcycles id userId motorcycle hf h
          rw [hres]
          intro m hm
          rcases mem_save Motorcycle._id motorcycles _ m hm with hm | hm
          · exact hinv m hm
          · rw [hm]
            have := hinv motorcycle hmoto
            rw [hsplit] at this
            exact onePerUser_remove pre removed rest this
        · rw [putUnlove_absent motorcycles id userId motorcycle hf h]
          exact hinv

theorem likeRequests_preserve (reqs : List LikeRequest) (posts : List Post)
    (hinv : ∀ p ∈ posts, OnePerUser p.likes) :
    ∀ p ∈ handleLikeRequests posts reqs, OnePerUser p.likes := by
  induction reqs generalizing posts with
  | nil => simpa [handleLikeRequests] using hinv
  | cons req reqs ih =>
    simp only [handleLikeRequests, List.foldl_cons]
    exact ih (req.handle posts) (likeRequest_preserves posts req hinv)

theorem loveRequests_preserve (reqs : List LoveRequest) (motorcycles : List Motorcycle)
    (hinv : ∀ m ∈ motorcycles, OnePerUser m.loves) :
    ∀ m ∈ handleLoveRequests motorcycles reqs, OnePerUser m.loves := by
  induction reqs generalizing motorcycles with
  | nil => simpa [handleLoveRequests] using hinv
  | cons req reqs ih =>
    simp only [handleLoveRequests, List.foldl_cons]
    exact ih (req.handle motorcycles) (loveRequest_preserves motorcycles req hinv)

/-- C7: holding at most one entry per user is preserved by every like / unlike
request on posts and every love / unlove request on motorcycles, whatever its
outcome; hence in a collection whose reaction lists start empty, after any
finite sequence of such requests by arbitrary users every reaction list holds at
most one entry per user. -/
theorem reactions_one_per_user :
    (∀ (posts : List Post) (req : LikeRequest), (∀ p ∈ posts, OnePerUser p.likes) →
      ∀ p ∈ req.handle posts, OnePerUser p.likes) ∧
    (∀ (motorcycles : List Motorcycle) (req : LoveRequest),
      (∀ m ∈ motorcycles, OnePerUser m.loves) →
      ∀ m ∈ req.handle motorcycles, OnePerUser m.loves) ∧
    (∀ (posts : List Post) (reqs : List LikeRequest), (∀ p ∈ posts, p.likes = []) →
      ∀ p ∈ handleLikeRequests posts reqs, OnePerUser p.likes) ∧
    (∀ (motorcycles : List Motorcycle) (reqs : List LoveRequest),
      (∀ m ∈ motorcycles, m.loves = []) →
      ∀ m ∈ handleLoveRequests motorcycles reqs, OnePerUser m.loves) := by
  refine ⟨likeRequest_preserves, loveRequest_preserves, ?_, ?_⟩
  · intro posts reqs hempty
    apply likeRequests_preserve
    intro p hp
    rw [OnePerUser, hempty p hp]
    exact List.nodup_nil
  · intro motorcycles reqs hempty
    apply loveRequests_preserve
    intro m hm
    rw [OnePerUser, hempty m hm]
    exact List.nodup_nil

theorem reactions_one_per_user_witness :
    (∀ p ∈ handleLikeRequests [postP]
        [.like idP idA idR1, .like idP idA idR2, .unlike idP idB, .like idP idB idR2,
          .unlike idP idA, .like idM idA idR1],
      OnePerUser p.likes) ∧
    (∀ m ∈ handleLoveRequests [motoM]
        [.love idM idB idR1, .love idM idB idR2, .unlove idM idA, .unlove idM idB],
      OnePerUser m.loves) :=
  ⟨reactions_one_per_user.2.2.1 [postP] _ (by decide),
   reactions_one_per_user.2.2.2 [motoM] _ (by decide)⟩

/-! ## Front insertion -/

theorem postComment_found (users : List User) (posts : List Post)
    (id userId text : String) (freshId : ObjectId) (now : Nat) (user : User) (post : Post)
    (htext : text ≠ "") (hu : findById User._id users userId = .ok (some user))
    (hp : findById Post._id posts id = .ok (some post)) :
    postComment users posts id userId text freshId now =
      (.json 200
        ({ _id := freshId, text := text, name := user.name, avatar := user.avatar,
           user := castObjectId userId, date := now } :: post.comments),
        save Post._id posts
          { post with
            comments :=
              { _id := freshId, text := text, name := user.name, avatar := user.avatar,
                user := castObjectId userId, date := now } :: post.comments }) := by
  simp only [postComment, hu, hp]
  rw [if_neg htext]

/-- C8: on a loaded post or motorcycle whose reaction list holds no entry of the
user, like / love saves and sends the new entry of that user followed by the
previous list; for a text that is not empty and a stored author, the comment
route saves and sends the new comment (text, the author's name and avatar, the
author reference) followed by the previous comments.  Hence on an empty list,
adding for U1 and then for U2 yields the entry of U2 followed by that of U1. -/
theorem front_insertion (id : String) :
    (∀ (posts : List Post) (post : Post) (userId : String) (freshId : ObjectId),
      findById Post._id posts id = .ok (some post) →
      (¬ ∃ r ∈ post.likes, r.user.toString = userId) →
      putLike posts id userId freshId =
        (.json 200 ({ _id := freshId, user := castObjectId userId } :: post.likes),
          save Post._id posts
            { post with
              likes := { _id := freshId, user := castObjectId userId } :: post.likes }) ∧
      (castObjectId userId).toString = userId) ∧
    (∀ (motorcycles : List Motorcycle) (motorcycle : Motorcycle) (userId : String)
      (freshId : ObjectId),
      findById Motorcycle._id motorcycles id = .ok (some motorcycle) →
      (¬ ∃ r ∈ motorcycle.loves, r.user.toString = userId) →
      putLove motorcycles id userId freshId =
        (.json 200 ({ _id := freshId, user := castObjectId userId } :: motorcycle.loves),
          save Motorcycle._id motorcycles
            { motorcycle with
              loves := { _id := freshId, user := castObjectId userId } :: motorcycle.loves }) ∧
      (castObjectId userId).toString = userId) ∧
    (∀ (users : List User) (posts : List Post) (post : Post) (user : User)
      (userId text : String) (freshId : ObjectId) (now : Nat),
      text ≠ "" → findById User._id users userId = .ok (some user) →
      findById Post._id posts id = .ok (some post) →
      postComment users posts id userId text freshId now =
        (.json 200
          ({ _id := freshId, text := text, name := user.name, avatar := user.avatar,
             user := castObjectId userId, date := now } :: post.comments),
          save Post._id posts
            { post with
              comments :=
                { _id := freshId, text := text, name := user.name, avatar := user.avatar,
                  user := castObjectId userId, date := now } :: post.comments })) ∧
    (∀ (posts : List Post) (post : Post) (u1 u2 : String) (f1 f2 : ObjectId),
      findById Post._id posts id = .ok (some post) → post.likes = [] → u1 ≠ u2 →
      (putLike (putLike posts id u1 f1).2 id u2 f2).1 =
        .json 200 [{ _id := f2, user := castObjectId u2 }, { _id := f1, user := castObjectId u1 }]) ∧
    (∀ (motorcycles : List Motorcycle) (motorcycle : Motorcycle) (u1 u2 : String)
      (f1 f2 : ObjectId),
      findById Motorcycle._id motorcycles id = .ok (some motorcycle) →
      motorcycle.loves = [] → u1 ≠ u2 →
      (putLove (putLove motorcycles id u1 f1).2 id u2 f2).1 =
        .json 200 [{ _id := f2, user := castObjectId u2 }, { _id := f1, user := castObjectId u1 }]) ∧
    (∀ (users : List User) (posts : List Post) (post : Post) (user1 user2 : User)
      (u1 u2 t1 t2 : String) (f1 f2 : ObjectId) (now1 now2 : Nat),
      t1 ≠ "" → t2 ≠ "" → findById User._id users u1 = .ok (some user1) →
      findById User._id users u2 = .ok (some user2) →
      findById Post._id posts id = .ok (some post) → post.comments = [] →
      (postComment users (postComment users posts id u1 t1 f1 now1).2 id u2 t2 f2 now2).1 =
        .json 200
          [{ _id := f2, text := t2, name := user2.name, avatar := user2.avatar,
             user := castObjectId u2, date := now2 },
           { _id := f1, text := t1, name := user1.name, avatar := user1.avatar,
             user := castObjectId u1, date := now1 }]) := by
  refine ⟨?_, ?_, ?_, ?_, ?_, ?_⟩
  · intro posts post userId freshId hp h
    exact ⟨putLike_absent posts id userId freshId post hp h, rfl⟩
  · intro motorcycles motorcycle userId freshId hp h
    exact ⟨putLove_absent motorcycles id userId freshId motorcycle hp h, rfl⟩
  · intro users posts post user userId text freshId now htext hu hp
    exact postComment_found users posts id userId text freshId now user post htext hu hp
  · intro posts post u1 u2 f1 f2 hp hempty hne
    have h1 : ¬ ∃ r ∈ post.likes, r.user.toString = u1 := by simp [hempty]
    rw [putLike_absent posts id u1 f1 post hp h1]
    have hp2 := findById_save Post._id posts id post
      { post with likes := { _id := f1, user := castObjectId u1 } :: post.likes } rfl hp
    have h2 : ¬ ∃ r ∈ ({ _id := f1, user := castObjectId u1 } :: post.likes : List Reaction),
        r.user.toString = u2 := by
      simpa [hempty, castObjectId, ObjectId.toString] using hne
    rw [putLike_absent _ id u2 f2 _ hp2 h2, hempty]
  · intro motorcycles motorcycle u1 u2 f1 f2 hp hempty hne
    have h1 : ¬ ∃ r ∈ motorcycle.loves, r.user.toString = u1 := by simp [hempty]
    rw [putLove_absent motorcycles id u1 f1 motorcycle hp h1]
    have hp2 := findById_save Motorcycle._id motorcycles id motorcycle
      { motorcycle with loves := { _id := f1, user := castObjectId u1 } :: motorcycle.loves }
      rfl hp
    have h2 : ¬ ∃ r ∈ ({ _id := f1, user := castObjectId u1 } :: motorcycle.loves :
        List Reaction), r.user.toString = u2 := by
      simpa [hempty, castObjectId, ObjectId.toString] using hne
    rw [putLove_absent _ id u2 f2 _ hp2 h2, hempty]
  · intro users posts post user1 user2 u1 u2 t1 t2 f1 f2 now1 now2 ht1 ht2 hu1 hu2 hp hempty
    rw [postComment_found users posts id u1 t1 f1 now1 user1 post ht1 hu1 hp]
    have hp2 := findById_save Post._id posts id post
      { post with
        comments :=
          { _id := f1, text := t1, name := user1.name, avatar := user1.avatar,
            user := castObjectId u1, date := now1 } :: post.comments } rfl hp
    rw [postComment_found users _ id u2 t2 f2 now2 user2 _ ht2 hu2 hp2, hempty]

theorem front_insertion_witness :
    (putLike (putLike [postP] idP idA idR1).2 idP idB idR2).1 =
      .json 200 [{ _id := idR2, user := castObjectId idB }, { _id := idR1, user := castObjectId idA }] ∧
    (putLove (putLove [motoM] idM idA idR1).2 idM idB idR2).1 =
      .json 200 [{ _id := idR2, user := castObjectId idB }, { _id := idR1, user := castObjectId idA }] ∧
    (postComment [userA, userB] (postComment [userA, userB] [postP] idP idA "first" idC1 1).2
        idP idB "hi" idC2 2).1 =
      .json 200
        [{ _id := idC2, text := "hi", name := userB.name, avatar := userB.avatar,
           user := castObjectId idB, date := 2 },
         { _id := idC1, text := "first", name := userA.name, avatar := userA.avatar,
           user := castObjectId idA, date := 1 }] :=
  ⟨(front_insertion idP).2.2.2.1 [postP] postP idA idB idR1 idR2 (by decide) rfl (by decide),
   (front_insertion idM).2.2.2.2.1 [motoM] motoM idA idB idR1 idR2 (by decide) rfl (by decide),
   (front_insertion idP).2.2.2.2.2 [userA, userB] [postP] postP userA userB idA idB "first" "hi"
     idC1 idC2 1 2 (by decide) (by decide) (by decide) (by decide) (by decide) rfl⟩

/-! ## Profile upsert -/

theorem findOneAndUpdate_found (userId : String) (fields : ProfileFields)
    (hfu : fields.user = userId) (stored : Profile) (profiles : List Profile)
    (h : profiles.find? (fun p => p.user.toString == canonical userId) = some stored) :
    (findOneAndUpdate profiles userId fields).1 = some (applySet stored fields) ∧
    (findOneAndUpdate profiles userId fields).2.find?
        (fun p => p.user.toString == canonical userId) =
      some (applySet stored fields) := by
  induction profiles with
  | nil => simp at h
  | cons a as ih =>
    by_cases ha : a.user.toString = canonical userId
    · have hfa : List.find? (fun p : Profile => p.user.toString == canonical userId)
          (a :: as) = some a := by
        simp [List.find?_cons, ha]
      have hst : a = stored := by
        rw [hfa] at h
        exact Option.some.inj h
      subst hst
      have hnew : (applySet a fields).user.toString = canonical userId := by
        simp [applySet, castObjectId, ObjectId.toString, hfu]
      simp [findOneAndUpdate, ha, List.find?_cons, hnew]
    · have hrest : List.find? (fun p : Profile => p.user.toString == canonical userId) as =
          some stored := by
        simpa [List.find?_cons, ha] using h
      obtain ⟨h1, h2⟩ := ih hrest
      simp [findOneAndUpdate, ha, List.find?_cons, h1, h2]

theorem setPath_truthy (given stored : Option String) :
    setPath ((if truthy given then given else none).map some) stored =
      (if truthy given then given else stored) := by
  cases given with
  | none => simp [truthy, setPath]
  | some v =>
    by_cases hv : v = ""
    · simp [truthy, setPath, hv]
    · simp [truthy, setPath, hv]

/-- C9 as stated fails: a body that passes the validation and carries the key
`company` with the empty string is sent against a stored profile whose company is
"Acme"; the returned profile still has company "Acme", not the value of the
input. -/
theorem upsert_present_key_not_written :
    profileErrors bodyEmptyCompany = [] ∧ bodyEmptyCompany.company = some "" ∧
    findOne [profileA] idA = .ok (some profileA) ∧ profileA.company = some "Acme" ∧
    ∃ returned, (postProfile [profileA] idA bodyEmptyCompany idR1 9).1 =
        .json 200 (some returned) ∧
      returned.company = some "Acme" ∧ returned.company ≠ bodyEmptyCompany.company := by
  exact ⟨by decide, rfl, by decide, rfl, profileAKeptCompany, by decide, rfl, by decide⟩

/-- C9, amended: for a stored profile of the user and a body that passes the
validation, the profile that the upsert returns and stores has, for each of
company, website, location, bio, status and githubusername, the value of the
body when the body carries the key with a non-empty value and the stored value
otherwise; its social links are exactly the links that the body carries with a
non-empty value, every other platform being cleared; the experience and
education lists, the identifier and the date are as stored.  With location "X"
stored, a body of only status and skills leaves location "X" and no social
link. -/
theorem upsert_merge (profiles : List Profile) (userId : String) (body : ProfileBody)
    (freshId : ObjectId) (now : Nat) (stored : Profile)
    (hacc : profileErrors body = [])
    (hfound : findOne profiles userId = .ok (some stored)) :
    (∃ updated, (postProfile profiles userId body freshId now).1 = .json 200 (some updated) ∧
      findOne (postProfile profiles userId body freshId now).2 userId = .ok (some updated) ∧
      updated.company = (if truthy body.company then body.company else stored.company) ∧
      updated.website = (if truthy body.website then body.website else stored.website) ∧
      updated.location = (if truthy body.location then body.location else stored.location) ∧
      updated.bio = (if truthy body.bio then body.bio else stored.bio) ∧
      updated.status = (if truthy body.status then body.status else stored.status) ∧
      updated.githubusername =
        (if truthy body.githubusername then body.githubusername else stored.githubusername) ∧
      updated.social =
        { youtube := if truthy body.youtube then body.youtube else none
          facebook := if truthy body.facebook then body.facebook else none
          twitter := if truthy body.twitter then body.twitter else none
          instagram := if truthy body.instagram then body.instagram else none
          linkedin := if truthy body.linkedin then body.linkedin else none } ∧
      updated.experience = stored.experience ∧ updated.education = stored.education ∧
      updated._id = stored._id ∧ updated.date = stored.date) ∧
    (profileA.location = some "X" ∧
      ∃ updated, (postProfile [profileA] idA bodyStatusSkills idR1 9).1 =
          .json 200 (some updated) ∧
        updated.location = some "X" ∧ updated.social = ⟨none, none, none, none, none⟩) := by
  constructor
  · obtain ⟨hv, hf⟩ : isValidObjectId userId = true ∧
        profiles.find? (fun p => p.user.toString == canonical userId) = some stored := by
      unfold findOne at hfound
      split at hfound
      · rename_i hv
        exact ⟨hv, Except.ok.inj hfound⟩
      · cases hfound
    obtain ⟨h1, h2⟩ := findOneAndUpdate_found userId (buildProfileFields userId body) rfl
      stored profiles hf
    have hres : postProfile profiles userId body freshId now =
        (.json 200 (some (applySet stored (buildProfileFields userId body))),
          (findOneAndUpdate profiles userId (buildProfileFields userId body)).2) := by
      simp only [postProfile, hacc, hfound, h1]
      simp
    refine ⟨applySet stored (buildProfileFields userId body), by rw [hres], ?_, ?_, ?_, ?_, ?_,
      ?_, ?_, rfl, rfl, rfl, rfl, rfl⟩
    · rw [hres]
      simp only [findOne, hv, if_true, h2]
    · exact setPath_truthy body.company stored.company
    · exact setPath_truthy body.website stored.website
    · exact setPath_truthy body.location stored.location
    · exact setPath_truthy body.bio stored.bio
    · exact setPath_truthy body.status stored.status
    · exact setPath_truthy body.githubusername stored.githubusername
  · exact ⟨rfl, profileAUpdated, by decide, rfl, rfl⟩

theorem upsert_merge_witness :
    profileErrors bodyMove = [] ∧ findOne [profileA] idA = .ok (some profileA) ∧
    ∃ updated, (postProfile [profileA] idA bodyMove idR1 9).1 = .json 200 (some updated) ∧
      updated.company = some "Acme" ∧ updated.location = some "Y" ∧
      updated.social =
        { youtube := some "https://youtube.example/new", facebook := none, twitter := none,
          instagram := none, linkedin := none } := by
  obtain ⟨updated, hres, _, hcompany, _, hlocation, _, _, _, hsocial, _⟩ :=
    (upsert_merge [profileA] idA bodyMove idR1 9 profileA (by decide) (by decide)).1
  exact ⟨by decide, by decide, updated, hres, hcompany.trans (by decide),
    hlocation.trans (by decide), hsocial.trans (by decide)⟩

/-! ## Skills -/

theorem postProfile_skills (profiles : List Profile) (userId : String) (body : ProfileBody)
    (freshId : ObjectId) (now : Nat) (skills : List String) (returned : Profile)
    (hs : (buildProfileFields userId body).skills = some skills)
    (hres : (postProfile profiles userId body freshId now).1 = .json 200 (some returned)) :
    returned.skills = skills := by
  unfold postProfile at hres
  split at hres
  · cases hres
  · cases hf : findOne profiles userId with
    | error e =>
      rw [hf] at hres
      cases hres
    | ok found =>
      cases found with
      | none =>
        simp only [hf, Reply.json.injEq, Option.some.injEq, true_and] at hres
        rw [← hres]
        simp [newProfile, hs, setPath]
      | some stored =>
        have hfind : profiles.find? (fun p => p.user.toString == canonical userId) =
            some stored := by
          unfold findOne at hf
          split at hf
          · exact Except.ok.inj hf
          · cases hf
        obtain ⟨h1, _⟩ := findOneAndUpdate_found userId (buildProfileFields userId body) rfl
          stored profiles hfind
        simp only [hf, h1, Reply.json.injEq, Option.some.injEq, true_and] at hres
        rw [← hres]
        simp [applySet, hs, setPath]

/-- C10: for a body whose `skills` is a non-empty string `s`, the skills that the
upsert assigns, and that the returned profile carries, are the pieces of `s`
between its commas, each trimmed of leading and trailing white space, in the
order of `s`: there is one more piece than there are commas in `s`, joining the
pieces with commas gives back `s`, no piece holds a comma, and each skill is its
piece without the white space before and after.  Empty pieces are kept: "a,,b"
gives "a", "", "b"; "Road, Touring ,Vintage" gives "Road", "Touring",
"Vintage". -/
theorem skills_parsing (userId : String) (body : ProfileBody) (s : String)
    (hs : body.skills = some s) (hne : s ≠ "") :
    (buildProfileFields userId body).skills = some ((split s ',').map trim) ∧
    ((split s ',').map trim).length = s.data.count ',' + 1 ∧
    List.intercalate [','] ((split s ',').map String.data) = s.data ∧
    (∀ piece ∈ split s ',', ',' ∉ piece.data) ∧
    (∀ piece ∈ split s ',', ∃ pre suf, piece.data = pre ++ (trim piece).data ++ suf ∧
      (∀ c ∈ pre, isWhiteSpace c = true) ∧ (∀ c ∈ suf, isWhiteSpace c = true) ∧
      (∀ c, (trim piece).data.head? = some c → isWhiteSpace c = false) ∧
      (∀ c, (trim piece).data.getLast? = some c → isWhiteSpace c = false)) ∧
    (∀ (profiles : List Profile) (freshId : ObjectId) (now : Nat) (returned : Profile),
      (postProfile profiles userId body freshId now).1 = .json 200 (some returned) →
      returned.skills = (split s ',').map trim) ∧
    (split "a,,b" ',').map trim = ["a", "", "b"] ∧
    (split "Road, Touring ,Vintage" ',').map trim = ["Road", "Touring", "Vintage"] := by
  have hfields : (buildProfileFields userId body).skills = some ((split s ',').map trim) := by
    simp [buildProfileFields, hs, hne]
  have hdata : (split s ',').map String.data = splitChars ',' s.data := by
    simp [split, List.map_map, Function.comp_def]
  refine ⟨hfields, ?_, ?_, ?_, ?_, ?_, by decide, by decide⟩
  · simp [split, splitChars_length]
  · rw [hdata]
    exact splitChars_intercalate ',' s.data
  · intro piece hp
    have : piece.data ∈ (split s ',').map String.data := List.mem_map.2 ⟨piece, hp, rfl⟩
    rw [hdata] at this
    exact splitChars_no_sep ',' s.data piece.data this
  · intro piece _
    exact trim_spec piece
  · intro profiles freshId now returned hres
    exact postProfile_skills profiles userId body freshId now _ returned hfields hres

theorem skills_parsing_witness :
    (buildProfileFields idA bodyMove).skills = some ["a", "", "b"] ∧
    (∀ (profiles : List Profile) (freshId : ObjectId) (now : Nat) (returned : Profile),
      (postProfile profiles idA bodyMove freshId now).1 = .json 200 (some returned) →
      returned.skills = ["a", "", "b"]) ∧
    (postProfile [] idA bodyStatusSkills idR1 9).1 =
      .json 200 (some (newProfile (buildProfileFields idA bodyStatusSkills) idR1 9)) ∧
    (newProfile (buildProfileFields idA bodyStatusSkills) idR1 9).skills =
      ["Road", "Touring", "Vintage"] :=
  ⟨(skills_parsing idA bodyMove "a,,b" rfl (by decide)).1.trans (by decide),
   fun profiles freshId now returned hres =>
    ((skills_parsing idA bodyMove "a,,b" rfl (by decide)).2.2.2.2.2.1 profiles freshId now
      returned hres).trans (by decide),
   by decide, by decide⟩

/-! ## Experience and education entries -/

theorem indexOf_absent (xs : List String) (x : String) (h : x ∉ xs) : indexOf xs x = -1 := by
  unfold indexOf
  rw [if_neg h]

theorem findOne_ok (profiles : List Profile) (userId : String) (r : Option Profile)
    (h : findOne profiles userId = .ok r) :
    isValidObjectId userId = true ∧
      profiles.find? (fun p => p.user.toString == canonical userId) = r := by
  unfold findOne at h
  split at h
  · rename_i hv
    exact ⟨hv, Except.ok.inj h⟩
  · cases h

theorem putExperience_no_profile (profiles : List Profile) (userId : String)
    (body : ExperienceBody) (freshId : ObjectId) (hacc : experienceErrors body = [])
    (hnone : findOne profiles userId = .ok none) :
    putExperience profiles userId body freshId = (.send 500 "Server Error", profiles) := by
  simp [putExperience, hacc, hnone]

theorem putEducation_no_profile (profiles : List Profile) (userId : String)
    (body : EducationBody) (freshId : ObjectId) (hacc : educationErrors body = [])
    (hnone : findOne profiles userId = .ok none) :
    putEducation profiles userId body freshId = (.send 500 "Server Error", profiles) := by
  simp [putEducation, hacc, hnone]

/-- On a stored profile the experience route puts the new entry before the
previous entries. -/
theorem putExperience_found (profiles : List Profile) (userId : String)
    (body : ExperienceBody) (freshId : ObjectId) (profile : Profile)
    (hacc : experienceErrors body = [])
    (hfound : findOne profiles userId = .ok (some profile)) :
    ∃ newExp : Experience, newExp._id = freshId ∧ newExp.title = body.title ∧
      newExp.company = body.company ∧ newExp.dateFrom = body.dateFrom ∧
      putExperience profiles userId body freshId =
        (.json 200 { profile with experience := newExp :: profile.experience },
          save Profile._id profiles
            { profile with experience := newExp :: profile.experience }) := by
  refine ⟨{ _id := freshId, title := body.title, company := body.company,
            location := body.location, dateFrom := body.dateFrom, dateTo := body.dateTo,
            current := body.current, description := body.description },
    rfl, rfl, rfl, rfl, ?_⟩
  simp [putExperience, hacc, hfound]

/-- On a stored profile the education route puts the new entry before the
previous entries. -/
theorem putEducation_found (profiles : List Profile) (userId : String)
    (body : EducationBody) (freshId : ObjectId) (profile : Profile)
    (hacc : educationErrors body = [])
    (hfound : findOne profiles userId = .ok (some profile)) :
    ∃ newEdu : Education, newEdu._id = freshId ∧ newEdu.school = body.school ∧
      newEdu.degree = body.degree ∧ newEdu.fieldofstudy = body.fieldofstudy ∧
      putEducation profiles userId body freshId =
        (.json 200 { profile with education := newEdu :: profile.education },
          save Profile._id profiles
            { profile with education := newEdu :: profile.education }) := by
  refine ⟨{ _id := freshId, school := body.school, degree := body.degree,
            fieldofstudy := body.fieldofstudy, dateFrom := body.dateFrom,
            dateTo := body.dateTo, current := body.current,
            description := body.description },
    rfl, rfl, rfl, rfl, ?_⟩
  simp [putEducation, hacc, hfound]

/-- C11: for user B, who has no profile in a collection that holds the profile of
user A, a valid experience entry and a valid education entry are both answered
with status 500 and the text "Server Error", the answer of the `catch` to any
thrown error, and not with a not-found answer; no profile is created.  The
education deletion, on the same collection and user, answers 404 "Profile not
found". -/
theorem add_entry_without_profile :
    findOne [profileA] idB = .ok none ∧
    experienceErrors bodyExp = [] ∧ educationErrors bodyEdu = [] ∧
    putExperience [profileA] idB bodyExp idE1 = (.send 500 "Server Error", [profileA]) ∧
    putEducation [profileA] idB bodyEdu idE1 = (.send 500 "Server Error", [profileA]) ∧
    deleteEducation [profileA] idB idE1.toString =
      (.message 404 "Profile not found", [profileA]) := by
  refine ⟨by decide, by decide, by decide, ?_, ?_, by decide⟩
  · exact putExperience_no_profile [profileA] idB bodyExp idE1 (by decide) (by decide)
  · exact putEducation_no_profile [profileA] idB bodyEdu idE1 (by decide) (by decide)

theorem deleteExperience_absent (profiles : List Profile) (userId exp_id : String)
    (profile : Profile) (hfound : findOne profiles userId = .ok (some profile))
    (h : ∀ item ∈ profile.experience, item.id ≠ exp_id) :
    deleteExperience profiles userId exp_id =
      (.message 404 "Experience not found", profiles) := by
  have hnot : exp_id ∉ profile.experience.map (fun item => item.id) := by
    intro hmem
    obtain ⟨item, hitem, hid⟩ := List.mem_map.1 hmem
    exact h item hitem hid
  simp only [deleteExperience, hfound, indexOf_absent _ _ hnot]
  rfl

theorem deleteExperience_present (profiles : List Profile) (userId exp_id : String)
    (profile : Profile) (hfound : findOne profiles userId = .ok (some profile))
    (h : ∃ item ∈ profile.experience, item.id = exp_id) :
    ∃ pre removed rest, profile.experience = pre ++ removed :: rest ∧
      (∀ item ∈ pre, item.id ≠ exp_id) ∧ removed.id = exp_id ∧
      deleteExperience profiles userId exp_id =
        (.json 200 { profile with experience := pre ++ rest },
          save Profile._id profiles { profile with experience := pre ++ rest }) := by
  obtain ⟨pre, removed, rest, hsplit, hpre, hrem, hidx, hspl⟩ :=
    splice_indexOf (fun item : Experience => item.id) exp_id profile.experience h
  refine ⟨pre, removed, rest, hsplit, hpre, hrem, ?_⟩
  have hge : ¬ (indexOf (profile.experience.map (fun item => item.id)) exp_id < 0) := by
    rw [hidx]
    omega
  simp only [deleteExperience, hfound]
  rw [if_neg hge, hspl]

theorem deleteEducation_absent (profiles : List Profile) (userId education_id : String)
    (profile : Profile) (hfound : findOne profiles userId = .ok (some profile))
    (h : ∀ item ∈ profile.education, item.id ≠ education_id) :
    deleteEducation profiles userId education_id =
      (.message 404 "Education not found", profiles) := by
  have hnot : education_id ∉ profile.education.map (fun item => item.id) := by
    intro hmem
    obtain ⟨item, hitem, hid⟩ := List.mem_map.1 hmem
    exact h item hitem hid
  simp only [deleteEducation, hfound, indexOf_absent _ _ hnot]
  rfl

theorem deleteEducation_present (profiles : List Profile) (userId education_id : String)
    (profile : Profile) (hfound : findOne profiles userId = .ok (some profile))
    (h : ∃ item ∈ profile.education, item.id = education_id) :
    ∃ pre removed rest, profile.education = pre ++ removed :: rest ∧
      (∀ item ∈ pre, item.id ≠ education_id) ∧ removed.id = education_id ∧
      deleteEducation profiles userId education_id =
        (.json 200 { profile with education := pre ++ rest },
          save Profile._id profiles { profile with education := pre ++ rest }) := by
  obtain ⟨pre, removed, rest, hsplit, hpre, hrem, hidx, hspl⟩ :=
    splice_indexOf (fun item : Education => item.id) education_id profile.education h
  refine ⟨pre, removed, rest, hsplit, hpre, hrem, ?_⟩
  have hge : ¬ (indexOf (profile.education.map (fun item => item.id)) education_id < 0) := by
    rw [hidx]
    omega
  simp only [deleteEducation, hfound]
  rw [if_neg hge, hspl]

/-- C12: on a stored profile, when no entry of the experience (education) list
has the requested identifier the deletion is answered with status 404 and
nothing is saved; otherwise what is saved and sent is the profile whose list
lost exactly one element, the first entry with the requested identifier, every
other entry kept in order and every other field of the profile as it was. -/
theorem remove_entry_by_id (profiles : List Profile) (userId entryId : String)
    (profile : Profile) (hfound : findOne profiles userId = .ok (some profile)) :
    ((∀ item ∈ profile.experience, item.id ≠ entryId) →
      deleteExperience profiles userId entryId =
        (.message 404 "Experience not found", profiles)) ∧
    ((∃ item ∈ profile.experience, item.id = entryId) →
      ∃ pre removed rest, profile.experience = pre ++ removed :: rest ∧
        (∀ item ∈ pre, item.id ≠ entryId) ∧ removed.id = entryId ∧
        (pre ++ rest).length + 1 = profile.experience.length ∧
        deleteExperience profiles userId entryId =
          (.json 200 { profile with experience := pre ++ rest },
            save Profile._id profiles { profile with experience := pre ++ rest })) ∧
    ((∀ item ∈ profile.education, item.id ≠ entryId) →
      deleteEducation profiles userId entryId =
        (.message 404 "Education not found", profiles)) ∧
    ((∃ item ∈ profile.education, item.id = entryId) →
      ∃ pre removed rest, profile.education = pre ++ removed :: rest ∧
        (∀ item ∈ pre, item.id ≠ entryId) ∧ removed.id = entryId ∧
        (pre ++ rest).length + 1 = profile.education.length ∧
        deleteEducation profiles userId entryId =
          (.json 200 { profile with education := pre ++ rest },
            save Profile._id profiles { profile with education := pre ++ rest })) := by
  refine ⟨deleteExperience_absent profiles userId entryId profile hfound, ?_,
    deleteEducation_absent profiles userId entryId profile hfound, ?_⟩
  · intro h
    obtain ⟨pre, removed, rest, hsplit, hpre, hrem, hres⟩ :=
      deleteExperience_present profiles userId entryId profile hfound h
    refine ⟨pre, removed, rest, hsplit, hpre, hrem, ?_, hres⟩
    rw [hsplit]
    simp only [List.length_append, List.length_cons]
    omega
  · intro h
    obtain ⟨pre, removed, rest, hsplit, hpre, hrem, hres⟩ :=
      deleteEducation_present profiles userId entryId profile hfound h
    refine ⟨pre, removed, rest, hsplit, hpre, hrem, ?_, hres⟩
    rw [hsplit]
    simp only [List.length_append, List.length_cons]
    omega

theorem remove_entry_by_id_witness :
    deleteExperience [profileAEntries] idA "000000000000000000000000" =
      (.message 404 "Experience not found", [profileAEntries]) ∧
    (∃ pre removed rest, [expE2, expE1] = pre ++ removed :: rest ∧
      (∀ item ∈ pre, item.id ≠ idE1.toString) ∧ removed.id = idE1.toString ∧
      (pre ++ rest).length + 1 = 2 ∧
      deleteExperience [profileAEntries] idA idE1.toString =
        (.json 200 { profileAEntries with experience := pre ++ rest },
          save Profile._id [profileAEntries]
            { profileAEntries with experience := pre ++ rest })) ∧
    deleteEducation [profileAEntries] idA "000000000000000000000000" =
      (.message 404 "Education not found", [profileAEntries]) ∧
    (∃ pre removed rest, [eduE2, eduE1] = pre ++ removed :: rest ∧
      (∀ item ∈ pre, item.id ≠ idE2.toString) ∧ removed.id = idE2.toString ∧
      (pre ++ rest).length + 1 = 2 ∧
      deleteEducation [profileAEntries] idA idE2.toString =
        (.json 200 { profileAEntries with education := pre ++ rest },
          save Profile._id [profileAEntries]
            { profileAEntries with education := pre ++ rest })) :=
  ⟨(remove_entry_by_id [profileAEntries] idA "000000000000000000000000" profileAEntries
      (by decide)).1 (by decide),
   (remove_entry_by_id [profileAEntries] idA idE1.toString profileAEntries
      (by decide)).2.1 ⟨expE1, by decide, rfl⟩,
   (remove_entry_by_id [profileAEntries] idA "000000000000000000000000" profileAEntries
      (by decide)).2.2.1 (by decide),
   (remove_entry_by_id [profileAEntries] idA idE2.toString profileAEntries
      (by decide)).2.2.2 ⟨eduE2, by decide, rfl⟩⟩

/-! ## The removal index of the comment deletion -/

/-- Of two splits of one list, the one at the first element mapped to `u` is not
the longer one. -/
theorem first_split_le {α : Type} (f : α → String) (u : String) (pre : List α) (d : α)
    (rest as : List α) (c : α) (bs : List α)
    (h : pre ++ d :: rest = as ++ c :: bs) (hpre : ∀ x ∈ pre, f x ≠ u) (hc : f c = u) :
    pre.length ≤ as.length := by
  induction pre generalizing as with
  | nil => simp
  | cons a pre ih =>
    cases as with
    | nil =>
      simp only [List.cons_append, List.nil_append, List.cons.injEq] at h
      exact absurd (h.1 ▸ hc) (hpre a (by simp))
    | cons b as =>
      simp only [List.cons_append, List.cons.injEq] at h
      have := ih as h.2 (fun x hx => hpre x (by simp [hx]))
      simp only [List.length_cons]
      omega

theorem exists_find_split {α : Type} (p : α → Bool) (xs : List α) (c : α)
    (h : xs.find? p = some c) :
    p c = true ∧ ∃ as bs, xs = as ++ c :: bs ∧ (∀ a ∈ as, p a = false) ∧
      xs.findIdx p = as.length := by
  induction xs with
  | nil => simp at h
  | cons x xs ih =>
    by_cases hx : p x = true
    · have hxc : x = c := by simpa [List.find?_cons, hx] using h
      subst hxc
      exact ⟨hx, [], xs, rfl, by simp, by simp [List.findIdx_cons, hx]⟩
    · have hrest : xs.find? p = some c := by simpa [List.find?_cons, hx] using h
      obtain ⟨hpc, as, bs, hsplit, has, hidx⟩ := ih hrest
      refine ⟨hpc, x :: as, bs, by rw [hsplit]; rfl, ?_, ?_⟩
      · intro a ha
        rcases List.mem_cons.1 ha with rfl | ha
        · simpa using hx
        · exact has a ha
      · simp [List.findIdx_cons, hx, hidx]

theorem only_one_rest {α : Type} (p : α → Bool) (pre : List α) (d : α) (rest : List α)
    (hpre : ∀ x ∈ pre, p x = false) (hd : p d = true)
    (hone : ((pre ++ d :: rest).filter p).length = 1) : ∀ x ∈ rest, p x = false := by
  have hfpre : pre.filter p = [] := by
    rw [List.filter_eq_nil_iff]
    intro a ha
    simp [hpre a ha]
  rw [List.filter_append, hfpre, List.filter_cons, if_pos hd] at hone
  simp only [List.nil_append, List.length_cons, add_left_eq_self, List.length_eq_zero] at hone
  intro x hx
  have := (List.filter_eq_nil_iff.1 hone) x hx
  simpa using this

/-- C14: on a loaded post, when the comment with the requested identifier is
authored by the requesting user, the index that the deletion computes by
searching the author references is not `-1` and not negative, is at most the
index of the comment with the requested identifier, and holds a comment of the
requesting user; the list that is saved and sent is the previous one without the
element at that index, one element shorter.  When the requesting user authored
only one comment of the list, the index is that of the identified comment and
the comment removed is the identified one. -/
theorem deleteComment_index_valid (posts : List Post) (id comment_id userId : String)
    (post : Post) (comment : Comment)
    (hp : findById Post._id posts id = .ok (some post))
    (hc : post.comments.find? (fun c => c.id == comment_id) = some comment)
    (hu : comment.user.toString = userId) :
    indexOf (post.comments.map (fun c => c.user.toString)) userId ≠ -1 ∧
    0 ≤ indexOf (post.comments.map (fun c => c.user.toString)) userId ∧
    indexOf (post.comments.map (fun c => c.user.toString)) userId ≤
      (post.comments.findIdx (fun c => c.id == comment_id) : Int) ∧
    (∃ removed,
      post.comments[(indexOf (post.comments.map (fun c => c.user.toString)) userId).toNat]? =
        some removed ∧
      removed.user.toString = userId ∧
      ((post.comments.filter (fun c => c.user.toString == userId)).length = 1 →
        removed = comment ∧
        indexOf (post.comments.map (fun c => c.user.toString)) userId =
          (post.comments.findIdx (fun c => c.id == comment_id) : Int))) ∧
    (deleteComment posts id comment_id userId).1 =
      .json 200
        (post.comments.eraseIdx
          (indexOf (post.comments.map (fun c => c.user.toString)) userId).toNat) ∧
    (post.comments.eraseIdx
      (indexOf (post.comments.map (fun c => c.user.toString)) userId).toNat).length + 1 =
      post.comments.length := by
  have hex : ∃ c ∈ post.comments, (fun c : Comment => c.user.toString) c = userId :=
    ⟨comment, List.mem_of_find?_eq_some hc, hu⟩
  obtain ⟨pre, removed, rest, hsplit, hpre, hrem, hidx, hspl⟩ :=
    splice_indexOf (fun c : Comment => c.user.toString) userId post.comments hex
  obtain ⟨hpc, as, bs, hsplit', has, hfind⟩ :=
    exists_find_split (fun c : Comment => c.id == comment_id) post.comments comment hc
  have hle : pre.length ≤ as.length :=
    first_split_le (fun c : Comment => c.user.toString) userId pre removed rest as comment bs
      (hsplit.symm.trans hsplit') hpre hu
  have herase : post.comments.eraseIdx pre.length = pre ++ rest := by
    rw [hsplit, List.eraseIdx_append_of_length_le (le_refl _)]
    simp
  rw [hidx, hfind]
  simp only [Int.toNat_ofNat]
  refine ⟨by omega, by omega, by exact_mod_cast hle, ⟨removed, ?_, hrem, ?_⟩, ?_, ?_⟩
  · rw [hsplit, List.getElem?_append_right (le_refl _)]
    simp
  · intro hone
    rw [hsplit] at hone
    have hrest := only_one_rest (fun c : Comment => c.user.toString == userId) pre removed rest
      (fun x hx => by simpa using hpre x hx) (by simpa using hrem) hone
    have hmem : comment ∈ pre ++ removed :: rest := hsplit ▸ List.mem_of_find?_eq_some hc
    have heq : removed = comment := by
      rcases List.mem_append.1 hmem with h | h
      · exact absurd hu (hpre comment h)
      · rcases List.mem_cons.1 h with h | h
        · exact h.symm
        · have := hrest comment h
          simp [hu] at this
    refine ⟨heq, ?_⟩
    have hge : as.length ≤ pre.length :=
      first_split_le (fun c : Comment => c.id) comment_id as comment bs pre removed rest
        (hsplit'.symm.trans hsplit) (fun x hx => by simpa using has x hx)
        (by rw [heq]; simpa using hpc)
    have : pre.length = as.length := le_antisymm hle hge
    exact_mod_cast this
  · rw [herase]
    simp only [deleteComment, hp, hc]
    rw [if_neg (by simpa using hu), hidx, splice_first_split_eq pre removed rest post.comments hsplit]
  · rw [herase, hsplit]
    simp only [List.length_append, List.length_cons]
    omega

theorem deleteComment_index_valid_witness :
    (indexOf (postThreeComments.comments.map (fun c => c.user.toString)) idA ≠ -1 ∧
      indexOf (postThreeComments.comments.map (fun c => c.user.toString)) idA ≤
        (postThreeComments.comments.findIdx (fun c => c.id == commentC1.id) : Int) ∧
      (deleteComment [postThreeComments] idP commentC1.id idA).1 =
        .json 200 [commentB, commentC1]) ∧
    (indexOf (postThreeComments.comments.map (fun c => c.user.toString)) idB =
        (postThreeComments.comments.findIdx (fun c => c.id == commentB.id) : Int) ∧
      (deleteComment [postThreeComments] idP commentB.id idB).1 =
        .json 200 [commentC2, commentC1]) := by
  have hA := deleteComment_index_valid [postThreeComments] idP commentC1.id idA
    postThreeComments commentC1 (by decide) (by decide) (by decide)
  have hB := deleteComment_index_valid [postThreeComments] idP commentB.id idB
    postThreeComments commentB (by decide) (by decide) (by decide)
  obtain ⟨removed, _, _, honly⟩ := hB.2.2.2.1
  exact ⟨⟨hA.1, hA.2.2.1, hA.2.2.2.2.1.trans (by decide)⟩,
    ⟨(honly (by decide)).2, hB.2.2.2.2.1.trans (by decide)⟩⟩

/-! ## Answers for a missing target -/

theorem findById_absent {α : Type} (oid : α → ObjectId) (docs : List α) (id : String)
    (h : isValidObjectId id = true → ∀ d ∈ docs, (oid d).toString ≠ canonical id) :
    findById oid docs id = (if isValidObjectId id then .ok none else .error .castError) := by
  unfold findById
  by_cases hv : isValidObjectId id = true
  · have hf : docs.find? (fun d => (oid d).toString == canonical id) = none := by
      rw [List.find?_eq_none]
      intro d hd
      simpa using h hv d hd
    rw [if_pos hv, if_pos hv, hf]
  · rw [if_neg hv, if_neg hv]

theorem findOne_absent (profiles : List Profile) (userId : String)
    (h : isValidObjectId userId = true →
      ∀ p ∈ profiles, p.user.toString ≠ canonical userId) :
    findOne profiles userId =
      (if isValidObjectId userId then .ok none else .error .castError) := by
  unfold findOne
  by_cases hv : isValidObjectId userId = true
  · have hf : profiles.find? (fun p => p.user.toString == canonical userId) = none := by
      rw [List.find?_eq_none]
      intro p hp
      simpa using h hv p hp
    rw [if_pos hv, if_pos hv, hf]
  · rw [if_neg hv, if_neg hv]

/-- A request string in upper-case hexadecimal digits denotes the stored
identifier that prints in lower case: the post is fetched and deleted, and the
profile of the user is fetched. -/
theorem lookup_casts_parameter :
    getPost [postP] "0123456789ABCDEF01234567" = .json 200 postP ∧
    deletePost [postP] "0123456789ABCDEF01234567" idA =
      (.message 200 "Post has been deleted", []) ∧
    getMotorcycle [motoM] "FEDCBA9876543210FEDCBA98" = some (.json 200 motoM) ∧
    getProfileByUser [userA] [profileA] "AAAAAAAAAAAAAAAAAAAAAAAA" =
      .json 200 (populate [userA] profileA) := by
  decide

/-- C13 as stated fails: user B is authenticated and has no profile in a
collection that holds only the profile of user A; the own-profile route and the
profile-by-user route both answer with status 400, not 404.  And a like on an
identifier that no post has is answered with status 500. -/
theorem missing_target_not_404 :
    findOne [profileA] idB = .ok none ∧
    getMe [userA, userB] [profileA] idB = .message 400 "There is no profile for this user" ∧
    (getMe [userA, userB] [profileA] idB).status ≠ 404 ∧
    getProfileByUser [userA, userB] [profileA] idB = .message 400 "Profile not found" ∧
    findById Post._id [postP] idM = .ok none ∧
    putLike [postP] idM idA idR1 = (.send 500 "Server Error", [postP]) := by
  decide

/-- C13, amended: a target is absent when the request string, if it casts to an
object identifier, is the identifier of no stored document (a string that does
not cast identifies nothing).  For an absent target, fetching and deleting a
post or a motorcycle by identifier are answered with status 404; so is a comment
with a text, by a well-formed user, on a well-formed identifier that no post
has; so are the deletion of a comment whose identifier no comment of the loaded
post has, the removal of an experience or education entry whose identifier no
entry of the stored profile has, and the removal of an education entry of a user
without profile.  The profile-by-user route, and the own-profile route for a
well-formed user, answer a user without profile with status 400. -/
theorem missing_target_statuses (id userId : String) :
    (∀ (posts : List Post),
      (isValidObjectId id = true → ∀ p ∈ posts, p._id.toString ≠ canonical id) →
      (getPost posts id).status = 404 ∧ (deletePost posts id userId).1.status = 404 ∧
      (deletePost posts id userId).2 = posts) ∧
    (∀ (motorcycles : List Motorcycle),
      (isValidObjectId id = true → ∀ m ∈ motorcycles, m._id.toString ≠ canonical id) →
      (∃ reply, getMotorcycle motorcycles id = some reply ∧ reply.status = 404) ∧
      (deleteMotorcycle motorcycles id userId).1.status = 404 ∧
      (deleteMotorcycle motorcycles id userId).2 = motorcycles) ∧
    (∀ (users : List User) (posts : List Post) (text : String) (freshId : ObjectId)
      (now : Nat), text ≠ "" → isValidObjectId userId = true → isValidObjectId id = true →
      (∀ p ∈ posts, p._id.toString ≠ canonical id) →
      (postComment users posts id userId text freshId now).1.status = 404) ∧
    (∀ (posts : List Post) (post : Post) (comment_id : String),
      findById Post._id posts id = .ok (some post) →
      (∀ c ∈ post.comments, c.id ≠ comment_id) →
      (deleteComment posts id comment_id userId).1.status = 404) ∧
    (∀ (profiles : List Profile) (profile : Profile),
      findOne profiles userId = .ok (some profile) →
      ((∀ item ∈ profile.experience, item.id ≠ id) →
        (deleteExperience profiles userId id).1.status = 404) ∧
      ((∀ item ∈ profile.education, item.id ≠ id) →
        (deleteEducation profiles userId id).1.status = 404)) ∧
    (∀ (users : List User) (profiles : List Profile),
      (isValidObjectId userId = true →
        ∀ p ∈ profiles, p.user.toString ≠ canonical userId) →
      (getProfileByUser users profiles userId).status = 400 ∧
      (isValidObjectId userId = true →
        (getMe users profiles userId).status = 400 ∧
        (deleteEducation profiles userId id).1.status = 404)) := by
  refine ⟨?_, ?_, ?_, ?_, ?_, ?_⟩
  · intro posts habs
    have hf := findById_absent Post._id posts id habs
    cases hv : isValidObjectId id <;>
      simp [getPost, deletePost, hf, hv, Thrown.kind, Reply.status]
  · intro motorcycles habs
    have hf := findById_absent Motorcycle._id motorcycles id habs
    cases hv : isValidObjectId id <;>
      simp [getMotorcycle, deleteMotorcycle, hf, hv, Thrown.kind, Reply.status]
  · intro users posts text freshId now htext hvu hvid habs
    have hf := findById_absent Post._id posts id (fun _ => habs)
    rw [if_pos hvid] at hf
    have hu : ∃ r, findById User._id users userId = .ok r := by
      unfold findById
      rw [if_pos hvu]
      exact ⟨_, rfl⟩
    obtain ⟨r, hr⟩ := hu
    simp [postComment, htext, hr, hf, Reply.status]
  · intro posts post comment_id hp hnone
    have hf : post.comments.find? (fun c => c.id == comment_id) = none := by
      rw [List.find?_eq_none]
      intro c hc
      simpa using hnone c hc
    simp [deleteComment, hp, hf, Reply.status]
  · intro profiles profile hfound
    constructor
    · intro h
      rw [deleteExperience_absent profiles userId id profile hfound h]
      rfl
    · intro h
      rw [deleteEducation_absent profiles userId id profile hfound h]
      rfl
  · intro users profiles habs
    have hf := findOne_absent profiles userId habs
    constructor
    · cases hv : isValidObjectId userId <;>
        simp [getProfileByUser, hf, hv, Thrown.kind, Reply.status]
    · intro hv
      simp [getMe, deleteEducation, hf, hv, Reply.status]

theorem missing_target_statuses_witness :
    ((getPost [postP] idM).status = 404 ∧ (deletePost [postP] idM idA).1.status = 404 ∧
      (deletePost [postP] idM idA).2 = [postP]) ∧
    ((getPost [postP] "FEDCBA9876543210FEDCBA98").status = 404 ∧
      (deletePost [postP] "FEDCBA9876543210FEDCBA98" idA).1.status = 404 ∧
      (deletePost [postP] "FEDCBA9876543210FEDCBA98" idA).2 = [postP]) ∧
    ((getPost [postP] "not-an-id").status = 404 ∧
      (deletePost [postP] "not-an-id" idA).1.status = 404 ∧
      (deletePost [postP] "not-an-id" idA).2 = [postP]) ∧
    ((∃ reply, getMotorcycle [motoM] idP = some reply ∧ reply.status = 404) ∧
      (deleteMotorcycle [motoM] idP idA).1.status = 404 ∧
      (deleteMotorcycle [motoM] idP idA).2 = [motoM]) ∧
    (postComment [userA] [postP] idM idA "hi" idC1 1).1.status = 404 ∧
    (deleteComment [postThreeComments] idP idM idA).1.status = 404 ∧
    ((deleteExperience [profileAEntries] idA idM).1.status = 404 ∧
      (deleteEducation [profileAEntries] idA idM).1.status = 404) ∧
    ((getProfileByUser [userA, userB] [profileA] idB).status = 400 ∧
      (getMe [userA, userB] [profileA] idB).status = 400 ∧
      (deleteEducation [profileA] idB idM).1.status = 404) ∧
    (getProfileByUser [userA, userB] [profileA] "BBBBBBBBBBBBBBBBBBBBBBBB").status = 400 :=
  ⟨(missing_target_statuses idM idA).1 [postP] (by decide),
   (missing_target_statuses "FEDCBA9876543210FEDCBA98" idA).1 [postP] (by decide),
   (missing_target_statuses "not-an-id" idA).1 [postP] (by decide),
   (missing_target_statuses idP idA).2.1 [motoM] (by decide),
   (missing_target_statuses idM idA).2.2.1 [userA] [postP] "hi" idC1 1 (by decide) (by decide)
     (by decide) (by decide),
   (missing_target_statuses idP idA).2.2.2.1 [postThreeComments] postThreeComments idM
     (by decide) (by decide),
   ⟨((missing_target_statuses idM idA).2.2.2.2.1 [profileAEntries] profileAEntries
      (by decide)).1 (by decide),
    ((missing_target_statuses idM idA).2.2.2.2.1 [profileAEntries] profileAEntries
      (by decide)).2 (by decide)⟩,
   ⟨((missing_target_statuses idM idB).2.2.2.2.2 [userA, userB] [profileA] (by decide)).1,
    (((missing_target_statuses idM idB).2.2.2.2.2 [userA, userB] [profileA] (by decide)).2
      (by decide)).1,
    (((missing_target_statuses idM idB).2.2.2.2.2 [userA, userB] [profileA] (by decide)).2
      (by decide)).2⟩,
   ((missing_target_statuses idM "BBBBBBBBBBBBBBBBBBBBBBBB").2.2.2.2.2 [userA, userB] [profileA]
      (by decide)).1⟩

end CharlesMotors
